import Mathlib

/-!
# Verification of the cache-coherent persistence engine (`database_director.py`)

A shallow embedding of `src/Code/backend/database_director.py`.

Modelling conventions:

* SQLite rows are Lean structures (`CharRow`, `VoiceRow`, `ConvRow`, `MsgRow`).
  Columns that the schema allows to be NULL are `Option`-typed.  Columns that
  store JSON-serialised text (`images`, `active_characters`, `audio_tokens`)
  are modelled by the parsed value they serialise (`json.dumps`/`json.loads`
  round-trip on these value shapes), wrapped in `Option` for NULL.
* `datetime.now().isoformat()` and `uuid.uuid4()` are nondeterministic inputs;
  every operation that reads the clock or draws a uuid takes it as an explicit
  argument.
* Python dictionaries used as caches are association lists with dict update
  semantics (`alSet` replaces in place or appends; `alGet` finds the entry).
* Every operation returns `Except PyErr α × DD`: the `Except` models the
  raised `HTTPException` (or the value returned), and the second component is
  the state of the `DatabaseDirector` (store + caches) when control returns to
  the caller, reflecting exactly the in-place mutations the Python code had
  performed by that point.
* `asyncio.create_task` calls are modelled by returning a task value; a
  separate `run…Task` function gives the effect of the detached task on the
  store when the scheduler eventually runs it.
* The audio-token blob (`Any` in Python) is modelled abstractly as `String`;
  only its identity matters to the specification claims.
-/

/-- `fastapi.HTTPException` (status code + detail) or a low-level storage fault
(e.g. `sqlite3.IntegrityError`), the only two exception shapes the module can
raise or observe. -/
inductive PyErr where
  | http (status : Nat) (detail : String)
  | dbErr (msg : String)
deriving DecidableEq, Repr

/-- `str(e)` as used in the `detail=f"Database error: {str(e)}"` handlers:
Starlette's `HTTPException.__str__` is `f"{status_code}: {detail}"`. -/
def pyErrStr : PyErr → String
  | .http status detail => toString status ++ ": " ++ detail
  | .dbErr msg => msg

/-- The `except Exception as e: raise HTTPException(status_code=500, ...)`
handler, applied to any exception (this models the methods that do NOT have a
preceding `except HTTPException: raise` clause). -/
def wrapErr (e : PyErr) : PyErr :=
  .http 500 ("Database error: " ++ pyErrStr e)

/-- Opaque stand-in for the structured `audio_tokens` blob. -/
abbrev AudioTokens := String

/-- Embedded character-reference object inside `Conversation.active_characters`
(a Python dict carrying at least an `id`; only `.get("id")` is ever read). -/
structure ActiveChar where
  id : Option String
deriving DecidableEq, Repr

/-! ## Pydantic models (in-memory entity records) -/

structure Character where
  id : String
  name : String
  voice : String := ""
  system_prompt : String := ""
  image_url : String := ""
  images : List String := []
  is_active : Bool := false
  last_message : String := ""
  created_at : Option String := none
  updated_at : Option String := none
deriving DecidableEq, Repr

structure CharacterCreate where
  name : String
  voice : String := ""
  system_prompt : String := ""
  image_url : String := ""
  images : List String := []
  is_active : Bool := false
deriving DecidableEq, Repr

structure CharacterUpdate where
  name : Option String := none
  voice : Option String := none
  system_prompt : Option String := none
  image_url : Option String := none
  images : Option (List String) := none
  is_active : Option Bool := none
  last_message : Option String := none
deriving DecidableEq, Repr

structure Voice where
  voice : String
  method : String := ""
  audio_path : String := ""
  text_path : String := ""
  speaker_desc : String := ""
  scene_prompt : String := ""
  audio_tokens : Option AudioTokens := none
  id : Option String := none
  created_at : Option String := none
  updated_at : Option String := none
deriving DecidableEq, Repr

structure VoiceCreate where
  voice : String
  method : String := ""
  audio_path : String := ""
  text_path : String := ""
  speaker_desc : String := ""
  scene_prompt : String := ""
deriving DecidableEq, Repr

structure VoiceUpdate where
  new_voice : Option String := none
  method : Option String := none
  audio_path : Option String := none
  text_path : Option String := none
  speaker_desc : Option String := none
  scene_prompt : Option String := none
  audio_tokens : Option AudioTokens := none
deriving DecidableEq, Repr

structure Conversation where
  conversation_id : String
  title : Option String := none
  active_characters : List ActiveChar := []
  created_at : Option String := none
  updated_at : Option String := none
deriving DecidableEq, Repr

structure ConversationCreate where
  title : Option String := none
  active_characters : List ActiveChar := []
deriving DecidableEq, Repr

structure ConversationUpdate where
  title : Option String := none
  active_characters : Option (List ActiveChar) := none
deriving DecidableEq, Repr

structure Message where
  message_id : String
  conversation_id : String
  role : String
  name : Option String := none
  content : String
  character_id : Option String := none
  created_at : Option String := none
  updated_at : Option String := none
deriving DecidableEq, Repr

structure MessageCreate where
  conversation_id : String
  role : String
  content : String
  name : Option String := none
  character_id : Option String := none
deriving DecidableEq, Repr

/-! ## Stored rows (the four SQLite tables) -/

structure CharRow where
  id : String
  name : String
  voice : Option String := none
  system_prompt : Option String := none
  image_url : Option String := none
  images : Option (List String) := none
  is_active : Nat := 0
  last_message : Option String := none
  created_at : Option String := none
  updated_at : Option String := none
deriving DecidableEq, Repr

structure VoiceRow where
  voice : String
  method : Option String := none
  audio_path : Option String := none
  text_path : Option String := none
  speaker_desc : Option String := none
  scene_prompt : Option String := none
  audio_tokens : Option AudioTokens := none
  id : Option String := none
  created_at : Option String := none
  updated_at : Option String := none
deriving DecidableEq, Repr

structure ConvRow where
  conversation_id : String
  title : Option String := none
  active_characters : Option (List ActiveChar) := none
  created_at : Option String := none
  updated_at : Option String := none
deriving DecidableEq, Repr

structure MsgRow where
  message_id : String
  conversation_id : String
  role : String
  name : Option String := none
  content : String
  character_id : Option String := none
  created_at : Option String := none
  updated_at : Option String := none
deriving DecidableEq, Repr

/-- The durable store: the four tables, each a list of rows in insertion
order. -/
structure Db where
  characters : List CharRow := []
  voices : List VoiceRow := []
  conversations : List ConvRow := []
  messages : List MsgRow := []
deriving DecidableEq, Repr

/-! ## Row codec (`_row_to_*`) -/

/-- `_row_to_character`: NULL text fields decode to `""`, the JSON `images`
column decodes to `[]` when NULL, `is_active` through `bool(...)`. -/
def rowToCharacter (r : CharRow) : Character :=
  { id := r.id
    name := r.name
    voice := r.voice.getD ""
    system_prompt := r.system_prompt.getD ""
    image_url := r.image_url.getD ""
    images := r.images.getD []
    is_active := r.is_active != 0
    last_message := r.last_message.getD ""
    created_at := r.created_at
    updated_at := r.updated_at }

/-- `_row_to_voice`: NULL text fields decode to `""`; `audio_tokens` decodes
tolerantly (parse-or-passthrough), which on the parsed-value model is the
identity; `id` passes through as-is (it may be NULL). -/
def rowToVoice (r : VoiceRow) : Voice :=
  { voice := r.voice
    method := r.method.getD ""
    audio_path := r.audio_path.getD ""
    text_path := r.text_path.getD ""
    speaker_desc := r.speaker_desc.getD ""
    scene_prompt := r.scene_prompt.getD ""
    audio_tokens := r.audio_tokens
    id := r.id
    created_at := r.created_at
    updated_at := r.updated_at }

/-- `_row_to_conversation`. -/
def rowToConversation (r : ConvRow) : Conversation :=
  { conversation_id := r.conversation_id
    title := r.title
    active_characters := r.active_characters.getD []
    created_at := r.created_at
    updated_at := r.updated_at }

/-- `_row_to_message`: all fields pass through. -/
def rowToMessage (r : MsgRow) : Message :=
  { message_id := r.message_id
    conversation_id := r.conversation_id
    role := r.role
    name := r.name
    content := r.content
    character_id := r.character_id
    created_at := r.created_at
    updated_at := r.updated_at }

/-! ## SQL primitives on the store -/

def findChar (cid : String) (db : Db) : Option CharRow :=
  db.characters.find? (fun r => r.id == cid)

def findVoice (name : String) (db : Db) : Option VoiceRow :=
  db.voices.find? (fun r => r.voice == name)

def findConv (cid : String) (db : Db) : Option ConvRow :=
  db.conversations.find? (fun r => r.conversation_id == cid)

def findMsg (mid : String) (db : Db) : Option MsgRow :=
  db.messages.find? (fun r => r.message_id == mid)

/-- `INSERT INTO characters`: the primary key constraint turns a duplicate
`id` into an `IntegrityError`. -/
def insertChar (r : CharRow) (db : Db) : Except PyErr Db :=
  if (findChar r.id db).isSome then
    .error (.dbErr "UNIQUE constraint failed: characters.id")
  else
    .ok { db with characters := db.characters ++ [r] }

/-- `INSERT INTO voices` with the `voice` primary key. -/
def insertVoice (r : VoiceRow) (db : Db) : Except PyErr Db :=
  if (findVoice r.voice db).isSome then
    .error (.dbErr "UNIQUE constraint failed: voices.voice")
  else
    .ok { db with voices := db.voices ++ [r] }

/-- `INSERT INTO conversations` with the `conversation_id` primary key. -/
def insertConv (r : ConvRow) (db : Db) : Except PyErr Db :=
  if (findConv r.conversation_id db).isSome then
    .error (.dbErr "UNIQUE constraint failed: conversations.conversation_id")
  else
    .ok { db with conversations := db.conversations ++ [r] }

/-- `INSERT INTO messages` with the `message_id` primary key (foreign keys are
not enabled on the insert connections, so no FK check is performed). -/
def insertMsg (r : MsgRow) (db : Db) : Except PyErr Db :=
  if (findMsg r.message_id db).isSome then
    .error (.dbErr "UNIQUE constraint failed: messages.message_id")
  else
    .ok { db with messages := db.messages ++ [r] }

/-! ## Caches (Python dicts as association lists) -/

def alGet (k : String) : List (String × α) → Option α
  | [] => none
  | (k', v) :: l => if k' = k then some v else alGet k l

/-- `d[k] = v`: replace in place when the key exists, append otherwise. -/
def alSet (k : String) (v : α) : List (String × α) → List (String × α)
  | [] => [(k, v)]
  | (k', v') :: l => if k' = k then (k, v) :: l else (k', v') :: alSet k v l

/-- `del d[k]`. -/
def alDel (k : String) : List (String × α) → List (String × α)
  | [] => []
  | (k', v') :: l => if k' = k then alDel k l else (k', v') :: alDel k l

/-- `for x in d.values(): mutate x` — update every value in place. -/
def mapVals (f : α → α) (l : List (String × α)) : List (String × α) :=
  l.map (fun p => (p.1, f p.2))

/-- A voice-cache entry: `{"config": voice, "audio_tokens": tokens}`. -/
structure VoiceCacheEntry where
  config : Voice
  audio_tokens : Option AudioTokens
deriving DecidableEq, Repr

/-- The `DatabaseDirector` instance state: the durable store plus the two
process-wide caches and the `_cache_loaded` flag. -/
structure DD where
  db : Db := {}
  charCache : List (String × Character) := []
  voiceCache : List (String × VoiceCacheEntry) := []
  cacheLoaded : Bool := false
deriving DecidableEq, Repr

/-- "at most one cached entry per id": the key lists of both caches have no
duplicates. -/
def CacheKeysNodup (s : DD) : Prop :=
  (s.charCache.map Prod.fst).Nodup ∧ (s.voiceCache.map Prod.fst).Nodup

/-! ## ID Allocator (`_generate_character_id`) -/

/-- Python `\s` on ASCII: space, tab, newline, carriage return, vertical tab,
form feed. -/
def isWsChar (c : Char) : Bool :=
  c == ' ' || c == '\t' || c == '\n' || c == '\r' ||
  c == Char.ofNat 11 || c == Char.ofNat 12

/-- The character class `[a-z0-9\s-]` kept by `re.sub(r'[^a-z0-9\s-]', '', _)`. -/
def isSlugKeep (c : Char) : Bool :=
  ('a' ≤ c && c ≤ 'z') || ('0' ≤ c && c ≤ '9') || isWsChar c || c == '-'

/-- `str.lower()` on the ASCII range (all non-ASCII characters are dropped by
the following character-class filter anyway). -/
def lowerAscii (c : Char) : Char :=
  if 'A' ≤ c && c ≤ 'Z' then Char.ofNat (c.toNat + 32) else c

def isHy (c : Char) : Bool := c == '-'

/-- `re.sub(r'\s+', '-', _)`: replace each maximal whitespace run by one
hyphen. The `inRun` flag tracks whether the previous character belonged to a
whitespace run (structural recursion; the run-based equations are proved
below). -/
def subWsGo (inRun : Bool) : List Char → List Char
  | [] => []
  | c :: cs =>
    if isWsChar c then
      if inRun then subWsGo true cs else '-' :: subWsGo true cs
    else c :: subWsGo false cs

def subWs (l : List Char) : List Char := subWsGo false l

/-- `re.sub(r'-+', '-', _)`: collapse each maximal hyphen run to one hyphen. -/
def collapseHyGo (inRun : Bool) : List Char → List Char
  | [] => []
  | c :: cs =>
    if isHy c then
      if inRun then collapseHyGo true cs else '-' :: collapseHyGo true cs
    else c :: collapseHyGo false cs

def collapseHy (l : List Char) : List Char := collapseHyGo false l

def dropLeadHy (l : List Char) : List Char := l.dropWhile isHy

def dropTrailHy (l : List Char) : List Char := (l.reverse.dropWhile isHy).reverse

/-- `str.strip('-')`. -/
def trimHy (l : List Char) : List Char := dropLeadHy (dropTrailHy l)

def dropLeadWs (l : List Char) : List Char := l.dropWhile isWsChar

def dropTrailWs (l : List Char) : List Char := (l.reverse.dropWhile isWsChar).reverse

/-- `str.strip()` on a character list. -/
def pyStripL (l : List Char) : List Char := dropTrailWs (dropLeadWs l)

/-- `str.strip()`. -/
def pyStrip (s : String) : String := ⟨pyStripL s.data⟩

/-- The common tail of the slug pipeline: character-class filter, whitespace
runs to hyphens, hyphen-run collapse, trim hyphens at both ends. -/
def slugCoreL (l : List Char) : List Char :=
  trimHy (collapseHy (subWs (l.filter isSlugKeep)))

/-- The slug exactly as `_generate_character_id` computes it:
`name.lower().strip()` followed by the pipeline, defaulting to `character`. -/
def slugCodeL (name : List Char) : List Char :=
  let b := slugCoreL (pyStripL (name.map lowerAscii))
  if b.isEmpty then "character".data else b

/-- The slug as §4.3 of the spec words it (no leading `strip()` step):
lowercase, strip characters outside the class, collapse whitespace runs to a
single hyphen, collapse repeated hyphens, trim leading/trailing hyphens,
default to the literal slug `character`. -/
def slugSpecL (name : List Char) : List Char :=
  let b := slugCoreL (name.map lowerAscii)
  if b.isEmpty then "character".data else b

/-- Python `f"{n:03d}"`: zero-pad to (at least) three digits. -/
def pad3 (n : Nat) : String :=
  if n < 10 then "00" ++ toString n
  else if n < 100 then "0" ++ toString n
  else toString n

def digitVal (c : Char) : Nat := c.toNat - 48

/-- The regex `^{re.escape(base)}-(\d{3})$`: match `base-` followed by exactly
three digits and return their value. -/
def threeDigitSuffix (base : List Char) (id : List Char) : Option Nat :=
  if (base ++ ['-']).isPrefixOf id then
    let rest := id.drop (base.length + 1)
    if rest.length == 3 && rest.all Char.isDigit then
      some (rest.foldl (fun a c => a * 10 + digitVal c) 0)
    else none
  else none

/-- `_generate_character_id`: derive the slug, query ids `LIKE 'base-%'`,
regex-match the three-digit suffixes, take the max, increment, zero-pad.
(The store read cannot fault in the model, so the `except` fallback to
`base-001` never triggers.) -/
def generateCharacterId (name : String) (db : Db) : String :=
  let base := slugCodeL name.data
  let ids := db.characters.map (fun r => r.id.data)
  let like := ids.filter (fun i => (base ++ ['-']).isPrefixOf i)
  let highest := (like.filterMap (threeDigitSuffix base)).foldl Nat.max 0
  ⟨base⟩ ++ "-" ++ pad3 (highest + 1)

/-- Claim C3's wording of the allocator: the spec slug, a hyphen, and the
zero-padded suffix one greater than the highest existing three-digit suffix
among stored ids with that exact slug prefix — `001` when no such id exists. -/
def charIdSpec (name : String) (db : Db) : String :=
  let base := slugSpecL name.data
  let suffixes := (db.characters.map (fun r => r.id.data)).filterMap (threeDigitSuffix base)
  let next := match suffixes with
    | [] => 1
    | _ => suffixes.foldl Nat.max 0 + 1
  ⟨base⟩ ++ "-" ++ pad3 next

/-! ## Character operations -/

/-- The direct store read shared by `get_character` (fallback path) and
`_get_character_from_db`. -/
def getCharFromDb (cid : String) (db : Db) : Except PyErr Character :=
  match findChar cid db with
  | none => .error (.http 404 "Character not found")
  | some r => .ok (rowToCharacter r)

/-- `get_character`: serve from the cache when warmed and present, otherwise
read the store directly (without populating the cache). -/
def getCharacter (cid : String) (s : DD) : Except PyErr Character × DD :=
  if s.cacheLoaded then
    match alGet cid s.charCache with
    | some c => (.ok c, s)
    | none => (getCharFromDb cid s.db, s)
  else (getCharFromDb cid s.db, s)

/-- The row `create_character` INSERTs (no `last_message` column in the
statement, so it stays NULL). -/
def mkCharRow (now cid : String) (d : CharacterCreate) : CharRow :=
  { id := cid
    name := d.name
    voice := some d.voice
    system_prompt := some d.system_prompt
    image_url := some d.image_url
    images := some d.images
    is_active := if d.is_active then 1 else 0
    last_message := none
    created_at := some now
    updated_at := some now }

/-- `create_character`: allocate the id, INSERT, build the record, cache it.
Any exception (only a store fault is possible here) is wrapped as a 500. -/
def createCharacter (now : String) (d : CharacterCreate) (s : DD) :
    Except PyErr Character × DD :=
  let cid := generateCharacterId d.name s.db
  match insertChar (mkCharRow now cid d) s.db with
  | .error e => (.error (wrapErr e), s)
  | .ok db' =>
    let ch : Character :=
      { id := cid
        name := d.name
        voice := d.voice
        system_prompt := d.system_prompt
        image_url := d.image_url
        images := d.images
        is_active := d.is_active
        last_message := ""
        created_at := some now
        updated_at := some now }
    (.ok ch, { s with db := db', charCache := alSet cid ch s.charCache })

/-- Whether `update_character` builds a non-empty SET list. -/
def charUpdateNonempty (d : CharacterUpdate) : Bool :=
  d.name.isSome || d.voice.isSome || d.system_prompt.isSome ||
  d.image_url.isSome || d.images.isSome || d.is_active.isSome ||
  d.last_message.isSome

/-- The UPDATE applied to a matching characters row. -/
def charRowUpdate (now : String) (d : CharacterUpdate) (r : CharRow) : CharRow :=
  { r with
    name := d.name.getD r.name
    voice := match d.voice with | some v => some v | none => r.voice
    system_prompt := match d.system_prompt with | some v => some v | none => r.system_prompt
    image_url := match d.image_url with | some v => some v | none => r.image_url
    images := match d.images with | some v => some v | none => r.images
    is_active := match d.is_active with | some b => if b then 1 else 0 | none => r.is_active
    last_message := match d.last_message with | some v => some v | none => r.last_message
    updated_at := some now }

/-- `update_character`: existence check (cache or store), dynamic UPDATE,
re-read the row from the store, cache the decoded row. `HTTPException`s
propagate unchanged (`except HTTPException: raise`). -/
def updateCharacter (now cid : String) (d : CharacterUpdate) (s : DD) :
    Except PyErr Character × DD :=
  match (getCharacter cid s).1 with
  | .error e => (.error e, s)
  | .ok _ =>
    if charUpdateNonempty d then
      let db' := { s.db with
        characters := s.db.characters.map
          (fun r => if r.id == cid then charRowUpdate now d r else r) }
      match findChar cid db' with
      | none => (.error (.http 404 "Character not found"), { s with db := db' })
      | some r =>
        let c := rowToCharacter r
        (.ok c, { s with db := db', charCache := alSet cid c s.charCache })
    else (.error (.http 400 "No fields to update"), s)

/-- `delete_character`: existence check, DELETE, evict from the cache. -/
def deleteCharacter (cid : String) (s : DD) : Except PyErr Bool × DD :=
  match (getCharacter cid s).1 with
  | .error e => (.error e, s)
  | .ok _ =>
    let db' := { s.db with
      characters := s.db.characters.filter (fun r => !(r.id == cid)) }
    let cc := if (alGet cid s.charCache).isSome then alDel cid s.charCache
              else s.charCache
    (.ok true, { s with db := db', charCache := cc })

/-! ## Voice operations -/

/-- The store-read branch of `get_voice`: on a hit it lazily populates the
voice cache before returning. -/
def getVoiceFallback (name : String) (s : DD) : Except PyErr Voice × DD :=
  match findVoice name s.db with
  | none => (.error (.http 404 "Voice not found"), s)
  | some r =>
    let v := rowToVoice r
    (.ok v, { s with voiceCache := alSet name ⟨v, v.audio_tokens⟩ s.voiceCache })

/-- `get_voice`: cache when warmed and present, otherwise store with lazy
cache population. -/
def getVoice (name : String) (s : DD) : Except PyErr Voice × DD :=
  if s.cacheLoaded then
    match alGet name s.voiceCache with
    | some e => (.ok e.config, s)
    | none => getVoiceFallback name s
  else getVoiceFallback name s

/-- The row `create_voice` INSERTs (`audio_tokens` stays NULL). -/
def mkVoiceRow (now uuid name : String) (d : VoiceCreate) : VoiceRow :=
  { voice := name
    method := some d.method
    audio_path := some d.audio_path
    text_path := some d.text_path
    speaker_desc := some d.speaker_desc
    scene_prompt := some d.scene_prompt
    audio_tokens := none
    id := some uuid
    created_at := some now
    updated_at := some now }

/-- `create_voice`. NOTE (faithful to the source): this method's `try` block
has no `except HTTPException: raise` clause, so the 400 validation errors it
raises are caught by `except Exception` and re-raised wrapped as 500. -/
def createVoice (now uuid : String) (d : VoiceCreate) (s : DD) :
    Except PyErr Voice × DD :=
  let name := pyStrip d.voice
  if name == "" then
    (.error (wrapErr (.http 400 "Voice name required")), s)
  else if s.cacheLoaded && (alGet name s.voiceCache).isSome then
    (.error (wrapErr (.http 400 "Voice name already exists")), s)
  else
    match insertVoice (mkVoiceRow now uuid name d) s.db with
    | .error e => (.error (wrapErr e), s)
    | .ok db' =>
      let v : Voice :=
        { voice := name
          method := d.method
          audio_path := d.audio_path
          text_path := d.text_path
          speaker_desc := d.speaker_desc
          scene_prompt := d.scene_prompt
          audio_tokens := none
          id := some uuid
          created_at := some now
          updated_at := some now }
      (.ok v, { s with db := db', voiceCache := alSet name ⟨v, none⟩ s.voiceCache })

/-- `update_voice`'s handling of `new_voice`: strip it when given; an empty
result is a 400; a result equal to the current name adds no rename. Returns
the effective rename target, if any. -/
def parseNewVoice (name : String) (d : VoiceUpdate) : Except PyErr (Option String) :=
  match d.new_voice with
  | none => .ok none
  | some nv0 =>
    let nv := pyStrip nv0
    if nv == "" then .error (.http 400 "New voice name required")
    else if nv == name then .ok none
    else .ok (some nv)

/-- Whether `update_voice` builds a non-empty SET list, given the effective
rename target. -/
def voiceUpdateNonempty (ren : Option String) (d : VoiceUpdate) : Bool :=
  ren.isSome || d.method.isSome || d.audio_path.isSome || d.text_path.isSome ||
  d.speaker_desc.isSome || d.scene_prompt.isSome || d.audio_tokens.isSome

/-- The UPDATE applied to the matching voices row. -/
def voiceRowUpdate (now : String) (ren : Option String) (d : VoiceUpdate)
    (r : VoiceRow) : VoiceRow :=
  { r with
    voice := ren.getD r.voice
    method := match d.method with | some v => some v | none => r.method
    audio_path := match d.audio_path with | some v => some v | none => r.audio_path
    text_path := match d.text_path with | some v => some v | none => r.text_path
    speaker_desc := match d.speaker_desc with | some v => some v | none => r.speaker_desc
    scene_prompt := match d.scene_prompt with | some v => some v | none => r.scene_prompt
    audio_tokens := match d.audio_tokens with | some t => some t | none => r.audio_tokens
    updated_at := some now }

/-- The body of `update_voice` after the `await self.get_voice(voice_name)`
existence check: parse `new_voice`, empty-update check, collision check
against the store, UPDATE the voices row, bulk-UPDATE referencing characters
on rename, commit, re-read, then apply the same changes to the caches. -/
def updateVoiceCore (now name : String) (d : VoiceUpdate) (s₁ : DD) :
    Except PyErr Voice × DD :=
  match parseNewVoice name d with
  | .error e => (.error e, s₁)
  | .ok ren =>
    if voiceUpdateNonempty ren d then
      if (match ren with
          | some nv => (findVoice nv s₁.db).isSome
          | none => false) then
        (.error (.http 400 "Voice name already exists"), s₁)
      else
        let db₂ := { s₁.db with
          voices := s₁.db.voices.map
            (fun r => if r.voice == name then voiceRowUpdate now ren d r else r) }
        let db₃ := match ren with
          | some nv => { db₂ with
              characters := db₂.characters.map
                (fun c => if c.voice == some name then
                    { c with voice := some nv, updated_at := some now }
                  else c) }
          | none => db₂
        match findVoice (ren.getD name) db₃ with
        | none => (.error (.http 404 "Voice not found"), { s₁ with db := db₃ })
        | some r =>
          let v := rowToVoice r
          let vc₁ := match ren with
            | some _ =>
              if (alGet name s₁.voiceCache).isSome then alDel name s₁.voiceCache
              else s₁.voiceCache
            | none => s₁.voiceCache
          let vc₂ := alSet v.voice ⟨v, v.audio_tokens⟩ vc₁
          let cc := match ren with
            | some nv =>
              if s₁.cacheLoaded then
                mapVals
                  (fun c => if c.voice == name then
                      { c with voice := nv, updated_at := some now }
                    else c) s₁.charCache
              else s₁.charCache
            | none => s₁.charCache
          (.ok v, { s₁ with db := db₃, voiceCache := vc₂, charCache := cc })
    else (.error (.http 400 "No fields to update"), s₁)

/-- `update_voice`: existence check (with possible lazy cache fill) followed
by `updateVoiceCore`. `HTTPException`s propagate unchanged. -/
def updateVoice (now name : String) (d : VoiceUpdate) (s : DD) :
    Except PyErr Voice × DD :=
  match getVoice name s with
  | (.error e, s₁) => (.error e, s₁)
  | (.ok _, s₁) => updateVoiceCore now name d s₁

/-- The body of `delete_voice` after the existence check: DELETE the voice,
bulk-clear `voice` on referencing character rows, then the same on the
caches. -/
def deleteVoiceCore (now name : String) (s₁ : DD) : Except PyErr Bool × DD :=
  let db' := { s₁.db with
    voices := s₁.db.voices.filter (fun r => !(r.voice == name))
    characters := s₁.db.characters.map
      (fun c => if c.voice == some name then
          { c with voice := some "", updated_at := some now }
        else c) }
  let vc := if (alGet name s₁.voiceCache).isSome then alDel name s₁.voiceCache
            else s₁.voiceCache
  let cc := if s₁.cacheLoaded then
      mapVals
        (fun c => if c.voice == name then
            { c with voice := "", updated_at := some now }
          else c) s₁.charCache
    else s₁.charCache
  (.ok true, { s₁ with db := db', voiceCache := vc, charCache := cc })

/-- `delete_voice`: existence check followed by `deleteVoiceCore`. -/
def deleteVoice (now name : String) (s : DD) : Except PyErr Bool × DD :=
  match getVoice name s with
  | (.error e, s₁) => (.error e, s₁)
  | (.ok _, s₁) => deleteVoiceCore now name s₁

/-! ## Audio-token hot path -/

/-- The detached `_persist_audio_tokens` task. -/
structure AudioTask where
  voice_name : String
  tokens : AudioTokens
deriving DecidableEq, Repr

/-- `update_cached_audio_tokens`: when the voice is cached, update the cached
tokens slot and detach a persistence task; otherwise do nothing at all. -/
def updateCachedAudioTokens (name : String) (tok : AudioTokens) (s : DD) :
    DD × Option AudioTask :=
  match alGet name s.voiceCache with
  | some e =>
    ({ s with voiceCache := alSet name { e with audio_tokens := some tok } s.voiceCache },
     some ⟨name, tok⟩)
  | none => (s, none)

/-- `get_cached_audio_tokens`. -/
def getCachedAudioTokens (name : String) (s : DD) : Option AudioTokens :=
  match alGet name s.voiceCache with
  | some e => e.audio_tokens
  | none => none

/-- The effect of `_persist_audio_tokens` on the store when it runs (store
faults are logged and swallowed; the model's store does not fault). -/
def runAudioTask (t : AudioTask) (now : String) (db : Db) : Db :=
  { db with
    voices := db.voices.map
      (fun r => if r.voice == t.voice_name then
          { r with audio_tokens := some t.tokens, updated_at := some now }
        else r) }

/-! ## Conversation operations -/

/-- `_generate_conversation_title` with no first message: the clock string is
the `strftime('%Y-%m-%d %H:%M')` rendering, taken as an input. -/
def genConversationTitle (clock : String) : String :=
  "Conversation " ++ clock

/-- `get_conversation` (conversations are never cached). -/
def getConversation (cid : String) (s : DD) : Except PyErr Conversation :=
  match findConv cid s.db with
  | none => .error (.http 404 "Conversation not found")
  | some r => .ok (rowToConversation r)

/-- The UPDATE applied to the matching conversations row. -/
def convRowUpdate (now : String) (d : ConversationUpdate) (r : ConvRow) : ConvRow :=
  { r with
    title := match d.title with | some t => some t | none => r.title
    active_characters := match d.active_characters with
      | some a => some a
      | none => r.active_characters
    updated_at := some now }

/-- `update_conversation`: empty-update check, UPDATE, rowcount check (404
when no row matched), then a `get_conversation` re-read. -/
def updateConversation (now cid : String) (d : ConversationUpdate) (s : DD) :
    Except PyErr Conversation × DD :=
  if d.title.isSome || d.active_characters.isSome then
    let db' := { s.db with
      conversations := s.db.conversations.map
        (fun r => if r.conversation_id == cid then convRowUpdate now d r else r) }
    if (findConv cid s.db).isNone then
      (.error (.http 404 "Conversation not found"), { s with db := db' })
    else
      match findConv cid db' with
      | none => (.error (.http 404 "Conversation not found"), { s with db := db' })
      | some r => (.ok (rowToConversation r), { s with db := db' })
  else (.error (.http 400 "No fields to update"), s)

/-- `update_conversation_active_characters`. -/
def updateConversationActiveCharacters (now cid : String)
    (acs : List ActiveChar) (s : DD) : Except PyErr Conversation × DD :=
  updateConversation now cid { title := none, active_characters := some acs } s

/-- Apply the catch-all handler of a method without `except HTTPException:
raise` to an operation result. -/
def wrapExc (p : Except PyErr α × DD) : Except PyErr α × DD :=
  match p with
  | (.error e, s) => (.error (wrapErr e), s)
  | (.ok a, s) => (.ok a, s)

/-- `add_character_to_conversation`. NOTE (faithful to the source): no
`except HTTPException: raise` clause, so the 404 from `get_conversation` is
re-wrapped as a 500. -/
def addCharacterToConversation (now cid : String) (cd : ActiveChar) (s : DD) :
    Except PyErr Conversation × DD :=
  wrapExc
    (match getConversation cid s with
     | .error e => (.error e, s)
     | .ok conv =>
       if (conv.active_characters.map (fun c => c.id)).contains cd.id then
         (.ok conv, s)
       else
         updateConversationActiveCharacters now cid
           (conv.active_characters ++ [cd]) s)

/-- `remove_character_from_conversation` (same missing re-raise clause). -/
def removeCharacterFromConversation (now cid chid : String) (s : DD) :
    Except PyErr Conversation × DD :=
  wrapExc
    (match getConversation cid s with
     | .error e => (.error e, s)
     | .ok conv =>
       updateConversationActiveCharacters now cid
         (conv.active_characters.filter (fun c => !(c.id == some chid))) s)

/-- `delete_conversation`: DELETE with `PRAGMA foreign_keys = ON`, so messages
cascade; rowcount 0 means 404. -/
def deleteConversation (cid : String) (s : DD) : Except PyErr Bool × DD :=
  let db' := { s.db with
    conversations := s.db.conversations.filter (fun r => !(r.conversation_id == cid))
    messages := s.db.messages.filter (fun m => !(m.conversation_id == cid)) }
  if (findConv cid s.db).isNone then
    (.error (.http 404 "Conversation not found"), { s with db := db' })
  else (.ok true, { s with db := db' })

/-! ## Background write path -/

/-- The detached `_create_conversation_async` task. -/
structure ConvTask where
  conversation_id : String
  data : ConversationCreate
deriving DecidableEq, Repr

/-- `create_conversation_background`: draw the uuid, detach the insert task,
return the id immediately. The state is untouched at return time. -/
def createConversationBackground (uuid : String) (d : ConversationCreate) :
    String × ConvTask :=
  (uuid, ⟨uuid, d⟩)

/-- The effect of `_create_conversation_async` when it runs: the title is
computed inside the task (`title or _generate_conversation_title()`), failures
are logged and swallowed. -/
def runConvTask (t : ConvTask) (now clock : String) (db : Db) : Db :=
  let title := match t.data.title with
    | some ttl => if ttl == "" then genConversationTitle clock else ttl
    | none => genConversationTitle clock
  let row : ConvRow :=
    { conversation_id := t.conversation_id
      title := some title
      active_characters := some t.data.active_characters
      created_at := some now
      updated_at := some now }
  match insertConv row db with
  | .ok db' => db'
  | .error _ => db

/-- The detached `_create_message_async` task. -/
structure MsgTask where
  message_id : String
  data : MessageCreate
deriving DecidableEq, Repr

/-- The row the message insert statements write. -/
def mkMsgRow (now mid : String) (d : MessageCreate) : MsgRow :=
  { message_id := mid
    conversation_id := d.conversation_id
    role := d.role
    name := d.name
    content := d.content
    character_id := d.character_id
    created_at := some now
    updated_at := some now }

/-- `create_message_background`: draw the uuid synchronously, detach the
insert task, return the id immediately. -/
def createMessageBackground (uuid : String) (d : MessageCreate) :
    String × MsgTask :=
  (uuid, ⟨uuid, d⟩)

/-- The effect of `_create_message_async` when it runs (failures swallowed). -/
def runMsgTask (t : MsgTask) (now : String) (db : Db) : Db :=
  match insertMsg (mkMsgRow now t.message_id t.data) db with
  | .ok db' => db'
  | .error _ => db

/-- The detached `_create_messages_batch_async` task: it carries only the
message payloads — the per-message uuids are drawn inside the task when it
runs. -/
structure BatchTask where
  msgs : List MessageCreate
deriving DecidableEq, Repr

/-- `create_messages_batch_background`: detach the batch task. The Python
method returns `None` — no identifier is produced at call time. -/
def createMessagesBatchBackground (msgs : List MessageCreate) : BatchTask :=
  ⟨msgs⟩

/-- The loop body of the batch task: insert each message with its
freshly-drawn uuid; one shared `now` timestamp; a single final commit, so on
any failure the whole batch rolls back. -/
def batchInsert : List (MessageCreate × String) → String → Db → Except PyErr Db
  | [], _, db => .ok db
  | (m, u) :: rest, now, db =>
    match insertMsg (mkMsgRow now u m) db with
    | .error e => .error e
    | .ok db' => batchInsert rest now db'

/-- The effect of `_create_messages_batch_async` when it runs: the uuids drawn
inside the task are its nondeterministic input. Failures are swallowed and
(absent the final commit) the batch rolls back. -/
def runBatchTask (t : BatchTask) (uuids : List String) (now : String) (db : Db) : Db :=
  match batchInsert (t.msgs.zip uuids) now db with
  | .ok db' => db'
  | .error _ => db

/-! ## Message reads and deletes -/

/-- Lexicographic order on character lists (SQLite BINARY collation; UTF-8
byte order coincides with code-point order). -/
def charListLtB : List Char → List Char → Bool
  | [], [] => false
  | [], _ :: _ => true
  | _ :: _, [] => false
  | a :: as, b :: bs => if a < b then true else if b < a then false else charListLtB as bs

/-- `ORDER BY created_at` comparison key: SQLite sorts NULLs first (ASC). -/
def optStrLeB : Option String → Option String → Bool
  | none, _ => true
  | some _, none => false
  | some x, some y => !(charListLtB y.data x.data)

/-- Ascending `created_at` order. -/
def msgLeAscB (a b : MsgRow) : Bool := optStrLeB a.created_at b.created_at

/-- Descending `created_at` order (used by `ORDER BY created_at DESC`). -/
def msgLeDescB (a b : MsgRow) : Bool := optStrLeB b.created_at a.created_at

def insertLe (le : α → α → Bool) (a : α) : List α → List α
  | [] => [a]
  | b :: bs => if le a b then a :: b :: bs else b :: insertLe le a bs

/-- Deterministic (stable insertion) sort modelling SQL `ORDER BY`; with the
distinct sort keys the claims hypothesise, any `ORDER BY` implementation
returns this list. -/
def isortBy (le : α → α → Bool) : List α → List α
  | [] => []
  | a :: l => insertLe le a (isortBy le l)

/-- `WHERE conversation_id = ?`. -/
def convMessages (cid : String) (db : Db) : List MsgRow :=
  db.messages.filter (fun r => r.conversation_id == cid)

/-- `get_messages`: ascending `created_at`, optional `LIMIT ? OFFSET ?`. -/
def getMessages (cid : String) (limit : Option Nat) (offset : Nat) (db : Db) :
    Except PyErr (List Message) :=
  let sorted := isortBy msgLeAscB (convMessages cid db)
  let rows := match limit with
    | none => sorted
    | some l => (sorted.drop offset).take l
  .ok (rows.map rowToMessage)

/-- `get_recent_messages`: `ORDER BY created_at DESC LIMIT n`, then reversed
back to chronological order in Python. -/
def getRecentMessages (cid : String) (n : Nat) (db : Db) :
    Except PyErr (List Message) :=
  let rows := (isortBy msgLeDescB (convMessages cid db)).take n
  .ok (rows.reverse.map rowToMessage)

/-- `delete_message`: unconditional DELETE, no rowcount check, returns True
whenever the store does not fault. -/
def deleteMessage (mid : String) (s : DD) : Except PyErr Bool × DD :=
  (.ok true,
   { s with db := { s.db with
       messages := s.db.messages.filter (fun r => !(r.message_id == mid)) } })

/-! ## Predicates and concrete states used by the claim statements -/

/-- Cache/store convergence for one character id: the cached record equals the
decoded fresh store read (both absent counts as convergence). -/
def charConverged (s : DD) (cid : String) : Prop :=
  alGet cid s.charCache = (findChar cid s.db).map rowToCharacter

/-- Cache/store convergence for one voice name: the cached `config` record and
the cached `audio_tokens` slot both equal the decoded fresh store read. -/
def voiceConverged (s : DD) (name : String) : Prop :=
  (alGet name s.voiceCache).map VoiceCacheEntry.config =
    (findVoice name s.db).map rowToVoice ∧
  (alGet name s.voiceCache).map VoiceCacheEntry.audio_tokens =
    (findVoice name s.db).map (fun r => (rowToVoice r).audio_tokens)

/-- Strictly-increasing `created_at` keys (SQLite BINARY order; NULL first). -/
def optStrLtB : Option String → Option String → Bool
  | none, none => false
  | none, some _ => true
  | some _, none => false
  | some x, some y => charListLtB x.data y.data

/-- A warmed director whose voice cache holds `aria` (used as a concrete
failing input). -/
def ddVoiceWarm : DD :=
  { voiceCache := [("aria", ⟨{ voice := "aria" }, none⟩)], cacheLoaded := true }

/-- A stored character row whose id is absent from the warmed cache. -/
def c7Row : CharRow := { id := "c1", name := "C" }

/-- A warmed director whose character cache is empty while the store holds
`c1`. -/
def c7State : DD := { db := { characters := [c7Row] }, cacheLoaded := true }

/-- A concrete message payload for the background-batch counterexample. -/
def c6Msg : MessageCreate :=
  { conversation_id := "c", role := "user", content := "hi" }

/-- State after `create_voice("aria")` on a fresh (never warm-loaded)
director. -/
def c4S1 : DD := (createVoice "t1" "v1" { voice := "aria" } {}).2

/-- State after additionally `create_character(name="Robot", voice="aria")`:
the character cache holds `robot-001` although `_cache_loaded` is false. -/
def c4S2 : DD := (createCharacter "t2" { name := "Robot", voice := "aria" } c4S1).2

/-- Concrete messages with strictly increasing timestamps (C8 witness). -/
def c8m1 : MsgRow :=
  { message_id := "m1", conversation_id := "c", role := "user", content := "x",
    created_at := some "a", updated_at := some "a" }

def c8m2 : MsgRow :=
  { message_id := "m2", conversation_id := "c", role := "assistant", content := "y",
    created_at := some "b", updated_at := some "b" }

def c8db : Db := { messages := [c8m1, c8m2] }

/-! # Helper lemmas -/

/-! ## Association lists -/

theorem alGet_nil (k : String) : alGet (α := α) k [] = none := rfl

theorem alGet_cons (k k' : String) (v' : α) (l : List (String × α)) :
    alGet k ((k', v') :: l) = if k' = k then some v' else alGet k l := rfl

theorem alGet_alSet_self (k : String) (v : α) (l : List (String × α)) :
    alGet k (alSet k v l) = some v := by
  induction l with
  | nil => simp [alSet, alGet]
  | cons p l ih =>
    obtain ⟨k', v'⟩ := p
    by_cases h : k' = k
    · simp [alSet, alGet, h]
    · simp [alSet, alGet, h, ih]

theorem alGet_alSet_ne (h : k' ≠ k) (v : α) (l : List (String × α)) :
    alGet k (alSet k' v l) = alGet k l := by
  induction l with
  | nil => simp [alSet, alGet, h]
  | cons p l ih =>
    obtain ⟨k'', v''⟩ := p
    by_cases h2 : k'' = k'
    · subst h2
      simp [alSet, alGet, h, Ne.symm h]
    · by_cases h3 : k'' = k <;>
        simp [alSet, alGet, h2, h3, Ne.symm h, ih]

theorem alGet_alDel_self (k : String) (l : List (String × α)) :
    alGet k (alDel k l) = none := by
  induction l with
  | nil => simp [alDel, alGet]
  | cons p l ih =>
    obtain ⟨k', v'⟩ := p
    by_cases h : k' = k
    · simpa [alDel, h] using ih
    · simpa [alDel, alGet, h] using ih

theorem alGet_alDel_ne (h : k' ≠ k) (l : List (String × α)) :
    alGet k (alDel k' l) = alGet k l := by
  induction l with
  | nil => simp [alDel, alGet]
  | cons p l ih =>
    obtain ⟨k'', v''⟩ := p
    by_cases h2 : k'' = k'
    · subst h2
      simpa [alDel, alGet, h, Ne.symm h] using ih
    · by_cases h3 : k'' = k <;>
        simp [alDel, alGet, h2, h3, h, Ne.symm h, ih]

theorem alGet_mapVals (f : α → α) (k : String) (l : List (String × α)) :
    alGet k (mapVals f l) = (alGet k l).map f := by
  induction l with
  | nil => simp [mapVals, alGet]
  | cons p l ih =>
    obtain ⟨k', v'⟩ := p
    simp only [mapVals, List.map_cons] at ih ⊢
    by_cases h : k' = k <;> simp [alGet, h, ih]

theorem alGet_eq_none_iff (k : String) (l : List (String × α)) :
    alGet k l = none ↔ k ∉ l.map Prod.fst := by
  induction l with
  | nil => simp [alGet]
  | cons p l ih =>
    obtain ⟨k', v'⟩ := p
    by_cases h : k' = k
    · subst h
      simp [alGet]
    · rw [alGet_cons, if_neg h]
      simp [ih, h, Ne.symm h]

theorem alSet_keys_of_mem {k : String} {l : List (String × α)}
    (hk : alGet k l ≠ none) (v : α) :
    (alSet k v l).map Prod.fst = l.map Prod.fst := by
  induction l with
  | nil => simp [alGet] at hk
  | cons p l ih =>
    obtain ⟨k', v'⟩ := p
    by_cases h : k' = k
    · simp [alSet, h]
    · rw [alGet_cons, if_neg h] at hk
      simp [alSet, h, ih hk]

theorem alSet_keys_of_none {k : String} {l : List (String × α)}
    (hk : alGet k l = none) (v : α) :
    (alSet k v l).map Prod.fst = l.map Prod.fst ++ [k] := by
  induction l with
  | nil => simp [alSet]
  | cons p l ih =>
    obtain ⟨k', v'⟩ := p
    by_cases h : k' = k
    · rw [alGet_cons, if_pos h] at hk
      exact absurd hk (by simp)
    · rw [alGet_cons, if_neg h] at hk
      simp [alSet, h, ih hk]

theorem alSet_keys_nodup (k : String) (v : α) (l : List (String × α))
    (h : (l.map Prod.fst).Nodup) : ((alSet k v l).map Prod.fst).Nodup := by
  by_cases hk : alGet k l = none
  · rw [alSet_keys_of_none hk]
    have : k ∉ l.map Prod.fst := (alGet_eq_none_iff k l).mp hk
    simp [List.nodup_append, h, this]
  · rw [alSet_keys_of_mem hk]
    exact h

theorem alDel_keys_sub (k : String) (l : List (String × α)) :
    (alDel k l).map Prod.fst ⊆ l.map Prod.fst := by
  induction l with
  | nil => simp [alDel]
  | cons p l ih =>
    obtain ⟨k', v'⟩ := p
    by_cases h : k' = k
    · simp only [alDel, h, if_pos rfl]
      exact fun a ha => by simp [ih ha]
    · simp only [alDel, h, if_false, List.map_cons]
      intro a ha
      rcases List.mem_cons.mp ha with rfl | ha
      · simp
      · simp [ih ha]

theorem alDel_keys_nodup (k : String) (l : List (String × α))
    (h : (l.map Prod.fst).Nodup) : ((alDel k l).map Prod.fst).Nodup := by
  induction l with
  | nil => simp [alDel]
  | cons p l ih =>
    obtain ⟨k', v'⟩ := p
    simp only [List.map_cons, List.nodup_cons] at h
    by_cases h2 : k' = k
    · simp only [alDel, h2, if_pos rfl]
      exact ih h.2
    · simp only [alDel, h2, if_false, List.map_cons, List.nodup_cons]
      exact ⟨fun hmem => h.1 (alDel_keys_sub k l hmem), ih h.2⟩

theorem mapVals_keys (f : α → α) (l : List (String × α)) :
    (mapVals f l).map Prod.fst = l.map Prod.fst := by
  induction l with
  | nil => rfl
  | cons p l ih => simp [mapVals, ih]

/-! ## Slug pipeline lemmas -/

theorem subWsGo_true_eq (cs : List Char) :
    subWsGo true cs = subWsGo false (cs.dropWhile isWsChar) := by
  induction cs with
  | nil => rfl
  | cons c cs ih =>
    by_cases h : isWsChar c
    · rw [List.dropWhile_cons_of_pos h]
      simpa [subWsGo, h] using ih
    · rw [List.dropWhile_cons_of_neg h]
      simp [subWsGo, h]

theorem subWs_nil : subWs [] = [] := rfl

theorem subWs_cons_ws (h : isWsChar c = true) (cs : List Char) :
    subWs (c :: cs) = '-' :: subWs (cs.dropWhile isWsChar) := by
  unfold subWs
  rw [subWsGo, if_pos h, if_neg (by simp), subWsGo_true_eq]

theorem subWs_cons_not (h : isWsChar c = false) (cs : List Char) :
    subWs (c :: cs) = c :: subWs cs := by
  unfold subWs
  rw [subWsGo, if_neg (by simp [h])]

theorem collapseHyGo_true_eq (cs : List Char) :
    collapseHyGo true cs = collapseHyGo false (cs.dropWhile isHy) := by
  induction cs with
  | nil => rfl
  | cons c cs ih =>
    by_cases h : isHy c
    · rw [List.dropWhile_cons_of_pos h]
      simpa [collapseHyGo, h] using ih
    · rw [List.dropWhile_cons_of_neg h]
      simp [collapseHyGo, h]

theorem collapseHy_nil : collapseHy [] = [] := rfl

theorem collapseHy_cons_hy (h : isHy c = true) (cs : List Char) :
    collapseHy (c :: cs) = '-' :: collapseHy (cs.dropWhile isHy) := by
  unfold collapseHy
  rw [collapseHyGo, if_pos h, if_neg (by simp), collapseHyGo_true_eq]

theorem collapseHy_cons_not (h : isHy c = false) (cs : List Char) :
    collapseHy (c :: cs) = c :: collapseHy cs := by
  unfold collapseHy
  rw [collapseHyGo, if_neg (by simp [h])]

theorem length_dropWhile_le (p : α → Bool) (l : List α) :
    (l.dropWhile p).length ≤ l.length :=
  (List.dropWhile_sublist p).length_le

theorem dropWhile_idem (p : α → Bool) (l : List α) :
    (l.dropWhile p).dropWhile p = l.dropWhile p := by
  induction l with
  | nil => rfl
  | cons a l ih =>
    by_cases h : p a
    · simp [List.dropWhile_cons_of_pos h, ih]
    · simp [List.dropWhile_cons_of_neg h]

theorem dropTrailHy_nil : dropTrailHy [] = [] := rfl

theorem dropTrailHy_cons (c : Char) (l : List Char) :
    dropTrailHy (c :: l) =
      if dropTrailHy l = [] then (if isHy c then [] else [c])
      else c :: dropTrailHy l := by
  unfold dropTrailHy
  rw [List.reverse_cons, List.dropWhile_append]
  by_cases h : (l.reverse.dropWhile isHy).isEmpty
  · rw [if_pos h]
    rw [List.isEmpty_eq_true] at h
    rw [if_pos (by simp [h])]
    by_cases hc : isHy c
    · simp [List.dropWhile_cons, hc]
    · simp [List.dropWhile_cons, hc]
  · rw [if_neg h]
    rw [List.isEmpty_eq_true] at h
    rw [if_neg (by simpa using h)]
    simp

theorem dropLeadHy_cons_hy (h : isHy c = true) (l : List Char) :
    dropLeadHy (c :: l) = dropLeadHy l := by
  simp [dropLeadHy, List.dropWhile_cons, h]

theorem dropLeadHy_cons_not (h : isHy c = false) (l : List Char) :
    dropLeadHy (c :: l) = c :: l := by
  simp [dropLeadHy, List.dropWhile_cons, h]

theorem dropLeadHy_idem (l : List Char) :
    dropLeadHy (dropLeadHy l) = dropLeadHy l :=
  dropWhile_idem isHy l

/-- `collapseHy` commutes with dropping leading hyphens. -/
theorem collapseHy_dropLeadHy_aux :
    ∀ (n : Nat) (w : List Char), w.length ≤ n →
      collapseHy (dropLeadHy w) = dropLeadHy (collapseHy w) := by
  intro n
  induction n with
  | zero =>
    intro w hw
    have hnil : w = [] := List.length_eq_zero.mp (Nat.le_zero.mp hw)
    subst hnil
    simp [dropLeadHy, collapseHy_nil]
  | succ n ih =>
    intro w hw
    match w with
    | [] => simp [dropLeadHy, collapseHy_nil]
    | c :: cs =>
      by_cases h : isHy c
      · have h1 : (dropLeadHy cs).length ≤ n := by
          have := length_dropWhile_le isHy cs
          simp only [List.length_cons] at hw
          simpa [dropLeadHy] using Nat.le_trans this (by omega)
        have h2 : cs.dropWhile isHy = dropLeadHy cs := rfl
        rw [dropLeadHy_cons_hy h, collapseHy_cons_hy h,
          dropLeadHy_cons_hy (show isHy '-' = true from rfl), h2,
          ← ih (dropLeadHy cs) h1, dropLeadHy_idem]
      · have h' : isHy c = false := by simpa using h
        rw [dropLeadHy_cons_not h', collapseHy_cons_not h',
          dropLeadHy_cons_not h']

theorem collapseHy_dropLeadHy (w : List Char) :
    collapseHy (dropLeadHy w) = dropLeadHy (collapseHy w) :=
  collapseHy_dropLeadHy_aux w.length w le_rfl

/-- Dropping hyphens at opposite ends commutes. -/
theorem dropTrailHy_dropLeadHy (y : List Char) :
    dropTrailHy (dropLeadHy y) = dropLeadHy (dropTrailHy y) := by
  induction y with
  | nil => rfl
  | cons c y' ih =>
    by_cases h : isHy c
    · rw [dropLeadHy_cons_hy h, ih, dropTrailHy_cons]
      by_cases he : dropTrailHy y' = []
      · rw [if_pos he, he, h]
        simp [dropLeadHy]
      · rw [if_neg he, dropLeadHy_cons_hy h]
    · have h' : isHy c = false := by simpa using h
      rw [dropLeadHy_cons_not h', dropTrailHy_cons]
      by_cases he : dropTrailHy y' = []
      · rw [if_pos he, h']
        simp [dropLeadHy, List.dropWhile_cons, h']
      · rw [if_neg he, dropLeadHy_cons_not h']

theorem trimHy_cons_hy (h : isHy c = true) (z : List Char) :
    trimHy (c :: z) = trimHy z := by
  unfold trimHy
  rw [dropTrailHy_cons]
  by_cases he : dropTrailHy z = []
  · rw [if_pos he, h, if_pos rfl, he]
  · rw [if_neg he, dropLeadHy_cons_hy h]

theorem trimHy_dropLeadHy (y : List Char) :
    trimHy (dropLeadHy y) = trimHy y := by
  unfold trimHy
  rw [dropTrailHy_dropLeadHy, dropLeadHy_idem]

/-- Dropping a leading hyphen character does not change the trimmed collapse. -/
theorem trim_collapse_cons_hy (h : isHy c = true) (w : List Char) :
    trimHy (collapseHy (c :: w)) = trimHy (collapseHy w) := by
  rw [collapseHy_cons_hy h, trimHy_cons_hy (show isHy '-' = true from rfl)]
  have h2 : w.dropWhile isHy = dropLeadHy w := rfl
  rw [h2, collapseHy_dropLeadHy, trimHy_dropLeadHy]

/-- Dropping leading whitespace does not change the slug-pipeline result. -/
theorem trim_collapse_subWs_dropLeadWs (v : List Char) :
    trimHy (collapseHy (subWs (v.dropWhile isWsChar))) =
      trimHy (collapseHy (subWs v)) := by
  match v with
  | [] => rfl
  | c :: v' =>
    by_cases h : isWsChar c
    · rw [List.dropWhile_cons_of_pos h, subWs_cons_ws h,
        trim_collapse_cons_hy (show isHy '-' = true from rfl)]
    · rw [List.dropWhile_cons_of_neg h]

theorem isSlugKeep_of_ws (h : isWsChar c = true) : isSlugKeep c = true := by
  simp [isSlugKeep, h]

/-- Leading `strip()` elimination through the class filter. -/
theorem trim_collapse_filter_dropLeadWs (t : List Char) :
    trimHy (collapseHy (subWs ((t.dropWhile isWsChar).filter isSlugKeep))) =
      trimHy (collapseHy (subWs (t.filter isSlugKeep))) := by
  induction t with
  | nil => rfl
  | cons c t' ih =>
    by_cases h : isWsChar c
    · rw [List.dropWhile_cons_of_pos h, ih,
        List.filter_cons_of_pos (isSlugKeep_of_ws h), subWs_cons_ws h,
        trim_collapse_cons_hy (show isHy '-' = true from rfl),
        trim_collapse_subWs_dropLeadWs]
    · rw [List.dropWhile_cons_of_neg h]

theorem subWs_all_ws (h : ∀ c ∈ sp, isWsChar c = true) :
    subWs sp = [] ∨ subWs sp = ['-'] := by
  match sp with
  | [] => exact Or.inl subWs_nil
  | c :: sp' =>
    refine Or.inr ?_
    rw [subWs_cons_ws (h c (by simp))]
    have : sp'.dropWhile isWsChar = [] :=
      List.dropWhile_eq_nil_iff.mpr (fun x hx => h x (by simp [hx]))
    rw [this, subWs_nil]

theorem dropTrail_collapse_subWs_all_ws (h : ∀ c ∈ sp, isWsChar c = true) :
    dropTrailHy (collapseHy (subWs sp)) = [] := by
  rcases subWs_all_ws h with h2 | h2 <;> rw [h2]
  · rw [collapseHy_nil]; rfl
  · rw [collapseHy_cons_hy (show isHy '-' = true from rfl)]
    simp only [List.dropWhile_nil, collapseHy_nil]
    rw [dropTrailHy_cons]
    simp [dropTrailHy_nil, isHy]

/-- Lifting an equality of trail-dropped collapses through a hyphen cons. -/
theorem dropTrail_collapse_lift_hy (h : isHy c = true)
    (hAB : dropTrailHy (collapseHy A) = dropTrailHy (collapseHy B)) :
    dropTrailHy (collapseHy (c :: A)) = dropTrailHy (collapseHy (c :: B)) := by
  have e : dropTrailHy (dropLeadHy (collapseHy A)) =
      dropTrailHy (dropLeadHy (collapseHy B)) := by
    rw [dropTrailHy_dropLeadHy, dropTrailHy_dropLeadHy, hAB]
  have hA : A.dropWhile isHy = dropLeadHy A := rfl
  have hB : B.dropWhile isHy = dropLeadHy B := rfl
  rw [collapseHy_cons_hy h, collapseHy_cons_hy h, hA, hB,
    collapseHy_dropLeadHy, collapseHy_dropLeadHy,
    dropTrailHy_cons, dropTrailHy_cons, e]

/-- Appending trailing whitespace does not change the trail-dropped collapse
of the substituted list. -/
theorem dropTrail_collapse_subWs_append_ws_aux :
    ∀ (n : Nat) (u sp : List Char), u.length ≤ n →
      (∀ c ∈ sp, isWsChar c = true) →
      dropTrailHy (collapseHy (subWs (u ++ sp))) =
        dropTrailHy (collapseHy (subWs u)) := by
  intro n
  induction n with
  | zero =>
    intro u sp hu hsp
    have hnil : u = [] := List.length_eq_zero.mp (Nat.le_zero.mp hu)
    subst hnil
    rw [List.nil_append, dropTrail_collapse_subWs_all_ws hsp, subWs_nil,
      collapseHy_nil, dropTrailHy_nil]
  | succ n ih =>
    intro u sp hu hsp
    match u with
    | [] =>
      rw [List.nil_append, dropTrail_collapse_subWs_all_ws hsp, subWs_nil,
        collapseHy_nil, dropTrailHy_nil]
    | c :: u' =>
      simp only [List.length_cons] at hu
      rw [List.cons_append]
      by_cases hw : isWsChar c
      · rw [subWs_cons_ws hw, subWs_cons_ws hw, List.dropWhile_append]
        by_cases he : (u'.dropWhile isWsChar).isEmpty
        · rw [if_pos he]
          rw [List.isEmpty_eq_true] at he
          have : sp.dropWhile isWsChar = [] :=
            List.dropWhile_eq_nil_iff.mpr (fun x hx => hsp x hx)
          rw [this, he]
        · rw [if_neg he]
          have hlen : (u'.dropWhile isWsChar).length ≤ n := by
            have := length_dropWhile_le isWsChar u'
            omega
          exact dropTrail_collapse_lift_hy rfl
            (ih (u'.dropWhile isWsChar) sp hlen hsp)
      · have hw' : isWsChar c = false := by simpa using hw
        rw [subWs_cons_not hw', subWs_cons_not hw']
        have ihu := ih u' sp (by omega) hsp
        by_cases hh : isHy c
        · exact dropTrail_collapse_lift_hy hh ihu
        · have hh' : isHy c = false := by simpa using hh
          rw [collapseHy_cons_not hh', collapseHy_cons_not hh',
            dropTrailHy_cons, dropTrailHy_cons, ihu]

theorem dropTrail_collapse_subWs_append_ws (u sp : List Char)
    (hsp : ∀ c ∈ sp, isWsChar c = true) :
    dropTrailHy (collapseHy (subWs (u ++ sp))) =
      dropTrailHy (collapseHy (subWs u)) :=
  dropTrail_collapse_subWs_append_ws_aux u.length u sp le_rfl hsp

/-- Trailing `strip()` elimination through the class filter. -/
theorem trim_collapse_filter_dropTrailWs (t : List Char) :
    trimHy (collapseHy (subWs ((dropTrailWs t).filter isSlugKeep))) =
      trimHy (collapseHy (subWs (t.filter isSlugKeep))) := by
  have hdec : t = dropTrailWs t ++ (t.reverse.takeWhile isWsChar).reverse := by
    conv_lhs => rw [← List.reverse_reverse t,
      ← List.takeWhile_append_dropWhile isWsChar t.reverse]
    rw [List.reverse_append]
    rfl
  have hsp : ∀ c ∈ (t.reverse.takeWhile isWsChar).reverse, isWsChar c = true := by
    intro c hc
    rw [List.mem_reverse] at hc
    exact List.mem_takeWhile_imp hc
  conv_rhs => rw [hdec]
  rw [List.filter_append,
    List.filter_eq_self.mpr (fun c hc => isSlugKeep_of_ws (hsp c hc))]
  unfold trimHy
  rw [dropTrail_collapse_subWs_append_ws _ _ hsp]

/-- `strip()` before the pipeline is redundant: the code slug equals the slug
as the spec words it. -/
theorem slugCodeL_eq_slugSpecL (name : List Char) :
    slugCodeL name = slugSpecL name := by
  unfold slugCodeL slugSpecL slugCoreL pyStripL
  rw [show dropLeadWs (name.map lowerAscii) =
      (name.map lowerAscii).dropWhile isWsChar from rfl]
  rw [trim_collapse_filter_dropTrailWs, trim_collapse_filter_dropLeadWs]

/-! ## Suffix allocation lemmas -/

theorem threeDigitSuffix_none_of_not_prefixOf (base i : List Char)
    (h : (base ++ ['-']).isPrefixOf i = false) :
    threeDigitSuffix base i = none := by
  unfold threeDigitSuffix
  simp [h]

theorem filterMap_filter_eq (f : α → Option β) (p : α → Bool)
    (h : ∀ a, p a = false → f a = none) (l : List α) :
    (l.filter p).filterMap f = l.filterMap f := by
  induction l with
  | nil => rfl
  | cons a l ih =>
    by_cases hp : p a
    · rw [List.filter_cons_of_pos hp, List.filterMap_cons, List.filterMap_cons, ih]
    · have hp' : p a = false := by simpa using hp
      rw [List.filter_cons_of_neg (by simp [hp']), List.filterMap_cons, h a hp', ih]

/-! ## Sorting lemmas (`ORDER BY created_at`) -/

theorem insertLe_at_end (le : α → α → Bool) (a : α) (l : List α)
    (h : ∀ x ∈ l, le a x = false) : insertLe le a l = l ++ [a] := by
  induction l with
  | nil => rfl
  | cons b l ih =>
    rw [insertLe, if_neg (by simp [h b (by simp)])]
    rw [ih (fun x hx => h x (by simp [hx]))]
    rfl

theorem isortBy_eq_self (le : α → α → Bool) (l : List α)
    (h : l.Pairwise (fun x y => le x y = true)) : isortBy le l = l := by
  induction l with
  | nil => rfl
  | cons a l ih =>
    rw [List.pairwise_cons] at h
    rw [isortBy, ih h.2]
    match l with
    | [] => rfl
    | b :: l' =>
      rw [insertLe, if_pos (by simp [h.1 b (by simp)])]

theorem isortBy_eq_reverse (le : α → α → Bool) (l : List α)
    (h : l.Pairwise (fun x y => le x y = false)) : isortBy le l = l.reverse := by
  induction l with
  | nil => rfl
  | cons a l ih =>
    rw [List.pairwise_cons] at h
    rw [isortBy, ih h.2, insertLe_at_end le a l.reverse
      (fun x hx => h.1 x (List.mem_reverse.mp hx)), List.reverse_cons]

/-! # Claim theorems -/

/-- C3: For every character name, the generated character id equals the slug
of the name (lowercased, characters outside `[a-z0-9\s-]` stripped, whitespace
runs collapsed to single hyphens, repeated hyphens collapsed, leading/trailing
hyphens trimmed, with the literal slug `character` when the result is empty)
followed by a hyphen and a zero-padded 3-digit suffix equal to one greater
than the highest existing 3-digit suffix among stored ids with that exact slug
prefix, and `001` when no such id exists. -/
theorem C3_character_id_allocation (name : String) (db : Db) :
    generateCharacterId name db = charIdSpec name db := by
  unfold generateCharacterId charIdSpec
  dsimp only
  rw [slugCodeL_eq_slugSpecL]
  rw [filterMap_filter_eq (threeDigitSuffix (slugSpecL name.data))
    (fun i => (slugSpecL name.data ++ ['-']).isPrefixOf i)
    (fun a ha => threeDigitSuffix_none_of_not_prefixOf _ _ ha)
    (db.characters.map (fun r => r.id.data))]
  cases h : (db.characters.map (fun r => r.id.data)).filterMap
      (threeDigitSuffix (slugSpecL name.data)) with
  | nil => rfl
  | cons x xs => rfl

/-- C2 (code bug): `create_voice` and `add_character_to_conversation` lack the
`except HTTPException: raise` clause that every sibling method has, so the
Validation (400) / NotFound (404) errors they raise are caught by the generic
`except Exception` handler and re-raised as storage-failure 500s. Evaluating
the embedded code at the failing inputs: creating a voice whose name already
exists in the warmed cache yields a 500 (wrapping the 400), and adding a
character to a missing conversation yields a 500 (wrapping the 404). -/
theorem C2_error_propagation_bug :
    (createVoice "t" "u" { voice := "aria" } ddVoiceWarm).1 =
      .error (.http 500 "Database error: 400: Voice name already exists") ∧
    (addCharacterToConversation "t" "missing" ⟨some "c1"⟩ ddVoiceWarm).1 =
      .error (.http 500 "Database error: 404: Conversation not found") :=
  ⟨rfl, rfl⟩

/-- C9: For every voice name not currently present in the voice cache,
`update_cached_audio_tokens` is a silent no-op: it mutates neither the cache
nor the store, spawns no background persistence task, and raises no error, so
the new audio tokens are lost without any caller-visible signal. -/
theorem C9_audio_tokens_silent_noop (name : String) (tok : AudioTokens)
    (s : DD) (h : alGet name s.voiceCache = none) :
    updateCachedAudioTokens name tok s = (s, none) := by
  unfold updateCachedAudioTokens
  rw [h]

theorem C9_audio_tokens_silent_noop_witness :
    alGet "ghost" (DD.voiceCache {}) = none ∧
    updateCachedAudioTokens "ghost" "tok" {} = ({}, none) :=
  ⟨rfl, C9_audio_tokens_silent_noop "ghost" "tok" {} rfl⟩

/-! ## Read-path helper lemmas -/

theorem getCharacter_hit (hl : s.cacheLoaded = true)
    (hc : alGet cid s.charCache = some c) :
    getCharacter cid s = (.ok c, s) := by
  unfold getCharacter
  rw [hl, hc]
  rfl

theorem getCharacter_miss (hmiss : s.cacheLoaded = false ∨ alGet cid s.charCache = none) :
    getCharacter cid s = (getCharFromDb cid s.db, s) := by
  unfold getCharacter
  rcases hmiss with h | h
  · rw [h]
    rfl
  · cases hl : s.cacheLoaded
    · rfl
    · rw [h]
      rfl

theorem getCharFromDb_found (hf : findChar cid db = some r) :
    getCharFromDb cid db = .ok (rowToCharacter r) := by
  unfold getCharFromDb
  rw [hf]

theorem getCharFromDb_404 (hf : findChar cid db = none) :
    getCharFromDb cid db = .error (.http 404 "Character not found") := by
  unfold getCharFromDb
  rw [hf]

theorem getVoice_hit (hl : s.cacheLoaded = true)
    (hc : alGet name s.voiceCache = some e) :
    getVoice name s = (.ok e.config, s) := by
  unfold getVoice
  rw [hl, hc]
  rfl

theorem getVoice_miss (hmiss : s.cacheLoaded = false ∨ alGet name s.voiceCache = none) :
    getVoice name s = getVoiceFallback name s := by
  unfold getVoice
  rcases hmiss with h | h
  · rw [h]
    rfl
  · cases hl : s.cacheLoaded
    · rfl
    · rw [h]
      rfl

theorem getVoiceFallback_found (hf : findVoice name s.db = some r) :
    getVoiceFallback name s =
      (.ok (rowToVoice r),
       { s with voiceCache :=
           alSet name ⟨rowToVoice r, (rowToVoice r).audio_tokens⟩ s.voiceCache }) := by
  unfold getVoiceFallback
  rw [hf]

theorem getVoiceFallback_404 (hf : findVoice name s.db = none) :
    getVoiceFallback name s = (.error (.http 404 "Voice not found"), s) := by
  unfold getVoiceFallback
  rw [hf]

/-- C10: `delete_message` returns True for every message id on which the
store delete does not fault, including absent ids; deleting an absent message
leaves the state unchanged; and — unlike conversation, character and voice
deletion — it never raises a NotFound error (those three raise 404 on an
absent id, shown in the remaining conjuncts). -/
theorem C10_delete_message_never_notfound :
    (∀ (s : DD) (mid : String),
      deleteMessage mid s =
        (.ok true,
         { s with db := { s.db with
             messages := s.db.messages.filter (fun r => !(r.message_id == mid)) } })) ∧
    (∀ (s : DD) (mid : String),
      (∀ r ∈ s.db.messages, r.message_id ≠ mid) → (deleteMessage mid s).2 = s) ∧
    (∀ (s : DD) (cid : String), findConv cid s.db = none →
      (deleteConversation cid s).1 = .error (.http 404 "Conversation not found")) ∧
    (∀ (s : DD) (cid : String),
      s.cacheLoaded = false ∨ alGet cid s.charCache = none →
      findChar cid s.db = none →
      (deleteCharacter cid s).1 = .error (.http 404 "Character not found")) ∧
    (∀ (now : String) (s : DD) (name : String),
      s.cacheLoaded = false ∨ alGet name s.voiceCache = none →
      findVoice name s.db = none →
      (deleteVoice now name s).1 = .error (.http 404 "Voice not found")) := by
  refine ⟨fun s mid => rfl, ?_, ?_, ?_, ?_⟩
  · intro s mid h
    unfold deleteMessage
    dsimp only
    rw [List.filter_eq_self.mpr (fun r hr => by simp [h r hr])]
  · intro s cid h
    unfold deleteConversation
    rw [h]
    rfl
  · intro s cid hmiss hf
    unfold deleteCharacter
    rw [getCharacter_miss hmiss, getCharFromDb_404 hf]
  · intro now s name hmiss hf
    unfold deleteVoice
    rw [getVoice_miss hmiss, getVoiceFallback_404 hf]

theorem C10_delete_message_never_notfound_witness :
    deleteMessage "m" ({} : DD) = (.ok true, {}) ∧
    (deleteConversation "c" ({} : DD)).1 =
      .error (.http 404 "Conversation not found") ∧
    (deleteCharacter "x" ({} : DD)).1 =
      .error (.http 404 "Character not found") ∧
    (deleteVoice "t" "v" ({} : DD)).1 =
      .error (.http 404 "Voice not found") :=
  ⟨by
    have h := C10_delete_message_never_notfound.1 {} "m"
    simpa using h,
   C10_delete_message_never_notfound.2.2.1 {} "c" rfl,
   C10_delete_message_never_notfound.2.2.2.1 {} "x" (Or.inl rfl) rfl,
   C10_delete_message_never_notfound.2.2.2.2 "t" {} "v" (Or.inl rfl) rfl⟩

/-- C7 counterexample: a warmed director whose character cache lacks `c1`
while the store holds it. `get_character` succeeds from the store but returns
with the director state unchanged — the character cache is NOT lazily
populated (its key set still lacks `c1`), contradicting the claim for
character lookups. -/
theorem C7_counterexample_character_not_cached :
    (getCharacter "c1" c7State).1 = .ok (rowToCharacter c7Row) ∧
    (getCharacter "c1" c7State).2 = c7State ∧
    alGet "c1" c7State.charCache = none :=
  ⟨rfl, rfl, rfl⟩

/-- C7 (amended): for a voice lookup with a warmed cache and an absent key,
the read falls back to the store, lazily populates the voice cache with the
row found there before returning it, and returns NotFound only if the store
also lacks the row. A character lookup falls back to the store and returns
the decoded row (or NotFound only if the store lacks it) but leaves the
character cache unpopulated. -/
theorem C7_amended_lazy_population :
    (∀ (name : String) (s : DD) (r : VoiceRow),
      s.cacheLoaded = true → alGet name s.voiceCache = none →
      findVoice name s.db = some r →
      getVoice name s =
        (.ok (rowToVoice r),
         { s with voiceCache :=
             alSet name ⟨rowToVoice r, (rowToVoice r).audio_tokens⟩ s.voiceCache })) ∧
    (∀ (name : String) (s : DD),
      s.cacheLoaded = true → alGet name s.voiceCache = none →
      findVoice name s.db = none →
      getVoice name s = (.error (.http 404 "Voice not found"), s)) ∧
    (∀ (cid : String) (s : DD) (r : CharRow),
      s.cacheLoaded = true → alGet cid s.charCache = none →
      findChar cid s.db = some r →
      getCharacter cid s = (.ok (rowToCharacter r), s)) ∧
    (∀ (cid : String) (s : DD),
      s.cacheLoaded = true → alGet cid s.charCache = none →
      findChar cid s.db = none →
      getCharacter cid s = (.error (.http 404 "Character not found"), s)) := by
  refine ⟨?_, ?_, ?_, ?_⟩
  · intro name s r _ hc hf
    rw [getVoice_miss (Or.inr hc), getVoiceFallback_found hf]
  · intro name s _ hc hf
    rw [getVoice_miss (Or.inr hc), getVoiceFallback_404 hf]
  · intro cid s r _ hc hf
    rw [getCharacter_miss (Or.inr hc), getCharFromDb_found hf]
  · intro cid s _ hc hf
    rw [getCharacter_miss (Or.inr hc), getCharFromDb_404 hf]

theorem C7_amended_lazy_population_witness :
    getCharacter "c1" c7State = (.ok (rowToCharacter c7Row), c7State) :=
  C7_amended_lazy_population.2.2.1 "c1" c7State c7Row rfl rfl rfl

/-- C6 counterexample: `create_messages_batch_background` returns no
identifier — the Python method returns `None`, and the per-message uuids are
drawn inside the detached task when it runs. Running the very same detached
task produced by one call with two different uuid draws persists two
different message identifiers, so no identifier returned synchronously at
call time can equal the identifier the task eventually persists. -/
theorem C6_counterexample_batch_ids_drawn_in_task :
    (runBatchTask (createMessagesBatchBackground [c6Msg]) ["u1"] "t" {}).messages.map
        (fun r => r.message_id) = ["u1"] ∧
    (runBatchTask (createMessagesBatchBackground [c6Msg]) ["u2"] "t" {}).messages.map
        (fun r => r.message_id) = ["u2"] ∧
    ("u1" : String) ≠ "u2" :=
  ⟨rfl, rfl, by decide⟩

/-- C6 (amended): `create_message_background` and
`create_conversation_background` generate the identifier synchronously and
return it immediately, before the detached task performs the insert, and the
identifier returned equals the identifier the detached task persists.
`create_messages_batch_background` returns no identifier; its message ids are
the uuids drawn inside the detached task when it runs. -/
theorem C6_amended_background_ids :
    (∀ (uuid now : String) (d : MessageCreate) (db : Db),
      (createMessageBackground uuid d).1 = uuid ∧
      (findMsg uuid db = none →
        (runMsgTask (createMessageBackground uuid d).2 now db).messages.map
            (fun r => r.message_id) =
          db.messages.map (fun r => r.message_id) ++ [uuid])) ∧
    (∀ (uuid now clock : String) (d : ConversationCreate) (db : Db),
      (createConversationBackground uuid d).1 = uuid ∧
      (findConv uuid db = none →
        (runConvTask (createConversationBackground uuid d).2 now clock db).conversations.map
            (fun r => r.conversation_id) =
          db.conversations.map (fun r => r.conversation_id) ++ [uuid])) ∧
    (∀ (u now : String) (m : MessageCreate) (db : Db),
      findMsg u db = none →
      (runBatchTask (createMessagesBatchBackground [m]) [u] now db).messages.map
          (fun r => r.message_id) =
        db.messages.map (fun r => r.message_id) ++ [u]) := by
  refine ⟨?_, ?_, ?_⟩
  · intro uuid now d db
    refine ⟨rfl, fun h => ?_⟩
    have h' : ¬ ∃ x ∈ db.messages, x.message_id = uuid := by
      rintro ⟨x, hx, he⟩
      have h2 : ∀ x ∈ db.messages, ¬ x.message_id = uuid := by
        simpa [findMsg, List.find?_eq_none] using h
      exact h2 x hx he
    simp [runMsgTask, insertMsg, createMessageBackground, mkMsgRow, findMsg, h']
  · intro uuid now clock d db
    refine ⟨rfl, fun h => ?_⟩
    have h' : ¬ ∃ x ∈ db.conversations, x.conversation_id = uuid := by
      rintro ⟨x, hx, he⟩
      have h2 : ∀ x ∈ db.conversations, ¬ x.conversation_id = uuid := by
        simpa [findConv, List.find?_eq_none] using h
      exact h2 x hx he
    simp [runConvTask, insertConv, createConversationBackground, findConv, h']
  · intro u now m db h
    have h' : ¬ ∃ x ∈ db.messages, x.message_id = u := by
      rintro ⟨x, hx, he⟩
      have h2 : ∀ x ∈ db.messages, ¬ x.message_id = u := by
        simpa [findMsg, List.find?_eq_none] using h
      exact h2 x hx he
    simp [runBatchTask, batchInsert, insertMsg, createMessagesBatchBackground,
      mkMsgRow, findMsg, h']

theorem C6_amended_background_ids_witness :
    (runMsgTask (createMessageBackground "u" c6Msg).2 "t" ({} : Db)).messages.map
        (fun r => r.message_id) = ["u"] := by
  have h := (C6_amended_background_ids.1 "u" "t" c6Msg {}).2 rfl
  simpa using h

/-! ## Order-key bridge lemmas -/

theorem charListLtB_asymm :
    ∀ {x y : List Char}, charListLtB x y = true → charListLtB y x = false := by
  intro x
  induction x with
  | nil =>
    intro y h
    match y with
    | [] => simp [charListLtB] at h
    | b :: bs => rfl
  | cons a as ih =>
    intro y h
    match y with
    | [] => simp [charListLtB] at h
    | b :: bs =>
      by_cases hab : a < b
      · have hba : ¬ b < a := lt_asymm hab
        simp [charListLtB, hba, hab]
      · by_cases hba : b < a
        · simp [charListLtB, hab, hba] at h
        · rw [charListLtB, if_neg hba, if_neg hab]
          rw [charListLtB, if_neg hab, if_neg hba] at h
          exact ih h

theorem optStrLtB_to_asc (h : optStrLtB a b = true) : optStrLeB a b = true := by
  match a, b with
  | none, none => simp [optStrLtB] at h
  | none, some y => rfl
  | some x, none => simp [optStrLtB] at h
  | some x, some y =>
    have hlt : charListLtB x.data y.data = true := by simpa [optStrLtB] using h
    simp [optStrLeB, charListLtB_asymm hlt]

theorem optStrLtB_to_desc_false (h : optStrLtB a b = true) :
    optStrLeB b a = false := by
  match a, b with
  | none, none => simp [optStrLtB] at h
  | none, some y => rfl
  | some x, none => simp [optStrLtB] at h
  | some x, some y =>
    have hlt : charListLtB x.data y.data = true := by simpa [optStrLtB] using h
    simp [optStrLeB, hlt]

/-- C8: For every conversation whose messages were inserted with strictly
increasing `created_at` timestamps, `get_messages` returns them in that same
chronological order, and `get_recent_messages(n)` returns exactly the
chronologically last `n` of them in chronological (oldest-first, not reverse)
order. -/
theorem C8_message_ordering (cid : String) (db : Db) (n : Nat)
    (h : (convMessages cid db).Pairwise
      (fun a b => optStrLtB a.created_at b.created_at = true)) :
    getMessages cid none 0 db = .ok ((convMessages cid db).map rowToMessage) ∧
    getRecentMessages cid n db =
      .ok (((convMessages cid db).drop ((convMessages cid db).length - n)).map
        rowToMessage) := by
  constructor
  · unfold getMessages
    rw [isortBy_eq_self msgLeAscB (convMessages cid db)
      (h.imp (fun hab => optStrLtB_to_asc hab))]
  · unfold getRecentMessages
    rw [isortBy_eq_reverse msgLeDescB (convMessages cid db)
      (h.imp (fun hab => optStrLtB_to_desc_false hab))]
    dsimp only
    rw [← List.rtake_eq_reverse_take_reverse]
    rfl

theorem C8_message_ordering_witness :
    getMessages "c" none 0 c8db = .ok ([c8m1, c8m2].map rowToMessage) ∧
    getRecentMessages "c" 1 c8db = .ok ([c8m2].map rowToMessage) := by
  have h := C8_message_ordering "c" c8db 1 (by decide)
  constructor
  · have h1 := h.1
    simpa [convMessages, c8db] using h1
  · have h2 := h.2
    simpa [convMessages, c8db] using h2

/-! ## update_voice helper lemmas -/

theorem parseNewVoice_rename {d : VoiceUpdate} {nv0 : String} (name : String)
    (hnv : d.new_voice = some nv0)
    (hne : pyStrip nv0 ≠ "") (hneq : pyStrip nv0 ≠ name) :
    parseNewVoice name d = .ok (some (pyStrip nv0)) := by
  unfold parseNewVoice
  rw [hnv]
  dsimp only
  rw [if_neg (by simp [hne]), if_neg (by simp [hneq])]

/-- C5: For every rename of a voice to a new name that already exists as
another voice, `update_voice` fails with a Validation (400) error and returns
with the director state exactly as it was — both the old and the colliding
voice records are unchanged in the store and the cache, and no partial
mutation is applied before the error. (The old voice is cached, as it is in
any warmed steady state.) -/
theorem C5_rename_collision_validation
    (now old nv0 : String) (d : VoiceUpdate) (s : DD) (e : VoiceCacheEntry)
    (r : VoiceRow)
    (hload : s.cacheLoaded = true)
    (hcached : alGet old s.voiceCache = some e)
    (hnv : d.new_voice = some nv0)
    (hne : pyStrip nv0 ≠ "")
    (hneq : pyStrip nv0 ≠ old)
    (hcol : findVoice (pyStrip nv0) s.db = some r) :
    updateVoice now old d s = (.error (.http 400 "Voice name already exists"), s) := by
  have h1 := getVoice_hit hload hcached
  unfold updateVoice
  rw [h1]
  show updateVoiceCore now old d s = _
  unfold updateVoiceCore
  rw [parseNewVoice_rename old hnv hne hneq]
  dsimp only
  rw [if_pos (by simp [voiceUpdateNonempty]), if_pos (by rw [hcol]; rfl)]

theorem C5_rename_collision_validation_witness :
    updateVoice "t" "aria" { new_voice := some "aria2" }
        { db := { voices := [{ voice := "aria2" }] },
          voiceCache := [("aria", ⟨{ voice := "aria" }, none⟩)],
          cacheLoaded := true } =
      (.error (.http 400 "Voice name already exists"),
       { db := { voices := [{ voice := "aria2" }] },
         voiceCache := [("aria", ⟨{ voice := "aria" }, none⟩)],
         cacheLoaded := true }) :=
  C5_rename_collision_validation "t" "aria" "aria2" _ _ ⟨{ voice := "aria" }, none⟩
    { voice := "aria2" } rfl rfl rfl (by decide) (by decide) rfl

/-- `find?` after a keyed in-place map: if no element satisfies `q`, the first
`p`-element maps to a `q`-element, and the map rewrites exactly the
`p`-elements, then the first `q`-element of the mapped list is the image of
the first `p`-element. -/
theorem find?_map_ite_other {β : Type} (p q : β → Bool) (g : β → β)
    (l : List β) (b₀ : β)
    (hq : ∀ b ∈ l, q b = false)
    (hp : l.find? p = some b₀)
    (hgq : q (g b₀) = true) :
    (l.map (fun b => if p b then g b else b)).find? q = some (g b₀) := by
  induction l with
  | nil => simp at hp
  | cons b l ih =>
    by_cases hpb : p b
    · rw [List.find?_cons_of_pos _ hpb] at hp
      obtain rfl : b = b₀ := by simpa using hp
      simp only [List.map_cons, if_pos hpb]
      rw [List.find?_cons_of_pos _ hgq]
    · rw [List.find?_cons_of_neg _ hpb] at hp
      simp only [List.map_cons, if_neg hpb]
      rw [List.find?_cons_of_neg _ (by simp [hq b (by simp)])]
      exact ih (fun x hx => hq x (by simp [hx])) hp

/-- Full evaluation of `updateVoiceCore` on a successful rename: the voices
row is updated (with the new name), referencing character rows are
bulk-updated, the old cache key is removed, the new key inserted, and (the
cache being warmed) every cached character with the old voice name is
rewritten. -/
theorem updateVoiceCore_rename_spec
    (now old nv : String) (d : VoiceUpdate) (s₁ : DD) (r₀ : VoiceRow)
    (hren : parseNewVoice old d = .ok (some nv))
    (hold : findVoice old s₁.db = some r₀)
    (hcol : findVoice nv s₁.db = none)
    (hcached : (alGet old s₁.voiceCache).isSome = true)
    (hload : s₁.cacheLoaded = true) :
    updateVoiceCore now old d s₁ =
      (.ok (rowToVoice (voiceRowUpdate now (some nv) d r₀)),
       { s₁ with
         db := { s₁.db with
           voices := s₁.db.voices.map
             (fun r => if r.voice == old then voiceRowUpdate now (some nv) d r else r)
           characters := s₁.db.characters.map
             (fun c => if c.voice == some old then
                 { c with voice := some nv, updated_at := some now }
               else c) }
         voiceCache := alSet nv
           ⟨rowToVoice (voiceRowUpdate now (some nv) d r₀),
            (rowToVoice (voiceRowUpdate now (some nv) d r₀)).audio_tokens⟩
           (alDel old s₁.voiceCache)
         charCache := mapVals
           (fun c => if c.voice == old then
               { c with voice := nv, updated_at := some now }
             else c) s₁.charCache }) := by
  unfold updateVoiceCore
  rw [hren]
  dsimp only
  rw [if_pos (by simp [voiceUpdateNonempty]), if_neg (by simp [hcol])]
  have hfind :
      ((s₁.db.voices.map
        (fun r => if r.voice == old then voiceRowUpdate now (some nv) d r else r)).find?
          (fun r => r.voice == nv)) =
        some (voiceRowUpdate now (some nv) d r₀) := by
    apply find?_map_ite_other (fun r => r.voice == old) (fun r => r.voice == nv)
      (voiceRowUpdate now (some nv) d) s₁.db.voices r₀
    · intro b hb
      have := List.find?_eq_none.mp hcol b hb
      simpa using this
    · exact hold
    · simp [voiceRowUpdate]
  show (match findVoice nv _ with
    | none => _
    | some r => _) = _
  rw [show findVoice nv
      { characters := s₁.db.characters.map
          (fun c => if c.voice == some old then
              { c with voice := some nv, updated_at := some now }
            else c)
        voices := s₁.db.voices.map
          (fun r => if r.voice == old then voiceRowUpdate now (some nv) d r else r)
        conversations := s₁.db.conversations
        messages := s₁.db.messages } =
      some (voiceRowUpdate now (some nv) d r₀) from hfind]
  dsimp only
  rw [if_pos hcached, hload]
  rfl

/-- The cache/store effects of a successful rename, relative to the state
after the `get_voice` existence check. -/
theorem updateVoiceCore_rename_effects
    (now old nv : String) (d : VoiceUpdate) (s₁ : DD) (r₀ : VoiceRow)
    (hren : parseNewVoice old d = .ok (some nv))
    (hneq : nv ≠ old)
    (hold : findVoice old s₁.db = some r₀)
    (hcol : findVoice nv s₁.db = none)
    (hcached : (alGet old s₁.voiceCache).isSome = true)
    (hload : s₁.cacheLoaded = true) :
    (updateVoiceCore now old d s₁).1 =
      .ok (rowToVoice (voiceRowUpdate now (some nv) d r₀)) ∧
    alGet old (updateVoiceCore now old d s₁).2.voiceCache = none ∧
    alGet nv (updateVoiceCore now old d s₁).2.voiceCache =
      some ⟨rowToVoice (voiceRowUpdate now (some nv) d r₀),
            (rowToVoice (voiceRowUpdate now (some nv) d r₀)).audio_tokens⟩ ∧
    (∀ (k : String) (c : Character), alGet k s₁.charCache = some c →
      alGet k (updateVoiceCore now old d s₁).2.charCache =
        some (if c.voice == old then { c with voice := nv, updated_at := some now }
              else c)) ∧
    (updateVoiceCore now old d s₁).2.db.characters =
      s₁.db.characters.map
        (fun c => if c.voice == some old then
            { c with voice := some nv, updated_at := some now }
          else c) := by
  rw [updateVoiceCore_rename_spec now old nv d s₁ r₀ hren hold hcol hcached hload]
  refine ⟨rfl, ?_, ?_, ?_, rfl⟩
  · dsimp only
    rw [alGet_alSet_ne hneq, alGet_alDel_self]
  · dsimp only
    rw [alGet_alSet_self]
  · intro k c hc
    dsimp only
    rw [alGet_mapVals, hc]
    rfl

/-- C4 counterexample: on a director that was never warm-loaded
(`_cache_loaded` is false) the character cache can still hold entries, because
`create_character` caches unconditionally. Renaming voice `aria` to `nova`
then succeeds and updates the stored character row, but the
`self._cache_loaded` guard skips the cached-character cascade: the cached
record still reads `aria`. This falsifies the claim that after every
successful rename every cached Character record has its voice field set to
the new name. -/
theorem C4_counterexample_skipped_cache_cascade :
    (updateVoice "t3" "aria" { new_voice := some "nova" } c4S2).1.toOption.map
        Voice.voice = some "nova" ∧
    (alGet "robot-001"
        (updateVoice "t3" "aria" { new_voice := some "nova" } c4S2).2.charCache).map
        Character.voice = some "aria" ∧
    (findChar "robot-001"
        (updateVoice "t3" "aria" { new_voice := some "nova" } c4S2).2.db).map
        CharRow.voice = some (some "nova") :=
  ⟨rfl, rfl, rfl⟩

/-- C4 (amended): for every successful rename of a voice from an old name to
a new name **on a warm-loaded director** (`_cache_loaded` true), the voice
cache removes the old key and inserts the new key, and every character whose
voice field equaled the old name — every cached Character record and every
stored character row — has its voice field set to the new name when the call
returns. (Without the warm-load flag the cached-character cascade is
skipped.) -/
theorem C4_amended_rename_cascade
    (now old nv0 nv : String) (d : VoiceUpdate) (s : DD) (r₀ : VoiceRow)
    (hload : s.cacheLoaded = true)
    (hnv : d.new_voice = some nv0)
    (hstrip : pyStrip nv0 = nv)
    (hne : nv ≠ "")
    (hneq : nv ≠ old)
    (hold : findVoice old s.db = some r₀)
    (hcol : findVoice nv s.db = none) :
    (updateVoice now old d s).1 =
      .ok (rowToVoice (voiceRowUpdate now (some nv) d r₀)) ∧
    alGet old (updateVoice now old d s).2.voiceCache = none ∧
    alGet nv (updateVoice now old d s).2.voiceCache =
      some ⟨rowToVoice (voiceRowUpdate now (some nv) d r₀),
            (rowToVoice (voiceRowUpdate now (some nv) d r₀)).audio_tokens⟩ ∧
    (∀ (k : String) (c : Character), alGet k s.charCache = some c →
      alGet k (updateVoice now old d s).2.charCache =
        some (if c.voice == old then { c with voice := nv, updated_at := some now }
              else c)) ∧
    (updateVoice now old d s).2.db.characters =
      s.db.characters.map
        (fun c => if c.voice == some old then
            { c with voice := some nv, updated_at := some now }
          else c) := by
  have hren : parseNewVoice old d = .ok (some nv) := by
    have h := parseNewVoice_rename old hnv
      (by rw [hstrip]; exact hne) (by rw [hstrip]; exact hneq)
    rw [hstrip] at h
    exact h
  by_cases hc : alGet old s.voiceCache = none
  · have hgv : getVoice old s =
        (.ok (rowToVoice r₀),
         { s with voiceCache :=
             alSet old ⟨rowToVoice r₀, (rowToVoice r₀).audio_tokens⟩ s.voiceCache }) := by
      rw [getVoice_miss (Or.inr hc), getVoiceFallback_found hold]
    have hU : updateVoice now old d s =
        updateVoiceCore now old d
          { s with voiceCache :=
              alSet old ⟨rowToVoice r₀, (rowToVoice r₀).audio_tokens⟩ s.voiceCache } := by
      unfold updateVoice
      rw [hgv]
    rw [hU]
    exact updateVoiceCore_rename_effects now old nv d _ r₀ hren hneq hold hcol
      (by dsimp only; rw [alGet_alSet_self]; rfl) hload
  · obtain ⟨e, he⟩ := Option.ne_none_iff_exists'.mp hc
    have hU : updateVoice now old d s = updateVoiceCore now old d s := by
      unfold updateVoice
      rw [getVoice_hit hload he]
    rw [hU]
    exact updateVoiceCore_rename_effects now old nv d s r₀ hren hneq hold hcol
      (by rw [he]; rfl) hload

theorem C4_amended_rename_cascade_witness :
    (updateVoice "t" "aria" { new_voice := some "nova" }
        { db := { voices := [{ voice := "aria", id := some "v1" }]
                  characters := [{ id := "robot-001", name := "Robot",
                                   voice := some "aria" }] }
          charCache := [("robot-001",
            { id := "robot-001", name := "Robot", voice := "aria" })]
          voiceCache := [("aria", ⟨{ voice := "aria", id := some "v1" }, none⟩)]
          cacheLoaded := true }).2.db.characters =
      [{ id := "robot-001", name := "Robot", voice := some "nova",
         updated_at := some "t" }] := by
  have h := C4_amended_rename_cascade "t" "aria" "nova" "nova"
    { new_voice := some "nova" }
    { db := { voices := [{ voice := "aria", id := some "v1" }]
              characters := [{ id := "robot-001", name := "Robot",
                               voice := some "aria" }] }
      charCache := [("robot-001",
        { id := "robot-001", name := "Robot", voice := "aria" })]
      voiceCache := [("aria", ⟨{ voice := "aria", id := some "v1" }, none⟩)]
      cacheLoaded := true }
    { voice := "aria", id := some "v1" }
    rfl rfl rfl (by decide) (by decide) rfl rfl
  have h5 := h.2.2.2.2
  simpa using h5

/-! ## Mutation inversion lemmas (for the convergence claim) -/

theorem find?_filter_not (p : β → Bool) (l : List β) :
    (l.filter (fun b => !(p b))).find? p = none :=
  List.find?_eq_none.mpr (fun x hx => by
    have := List.of_mem_filter hx
    simp at this
    simp [this])

theorem insertChar_ok (h : insertChar r db = .ok db') :
    findChar r.id db = none ∧
    db' = { db with characters := db.characters ++ [r] } := by
  unfold insertChar at h
  split at h
  · simp at h
  · next hns =>
    refine ⟨Option.not_isSome_iff_eq_none.mp (by simpa using hns), ?_⟩
    simpa using h.symm

theorem insertVoice_ok (h : insertVoice r db = .ok db') :
    findVoice r.voice db = none ∧
    db' = { db with voices := db.voices ++ [r] } := by
  unfold insertVoice at h
  split at h
  · simp at h
  · next hns =>
    refine ⟨Option.not_isSome_iff_eq_none.mp (by simpa using hns), ?_⟩
    simpa using h.symm

theorem rowToCharacter_mkCharRow (now cid : String) (d : CharacterCreate) :
    rowToCharacter (mkCharRow now cid d) =
      { id := cid, name := d.name, voice := d.voice,
        system_prompt := d.system_prompt, image_url := d.image_url,
        images := d.images, is_active := d.is_active, last_message := "",
        created_at := some now, updated_at := some now } := by
  cases hb : d.is_active <;> simp [rowToCharacter, mkCharRow, hb]

theorem rowToVoice_mkVoiceRow (now uuid name : String) (d : VoiceCreate) :
    rowToVoice (mkVoiceRow now uuid name d) =
      { voice := name, method := d.method, audio_path := d.audio_path,
        text_path := d.text_path, speaker_desc := d.speaker_desc,
        scene_prompt := d.scene_prompt, audio_tokens := none,
        id := some uuid, created_at := some now, updated_at := some now } := by
  simp [rowToVoice, mkVoiceRow]

theorem createCharacter_ok (h : createCharacter now d s = (.ok ch, s')) :
    charConverged s' ch.id ∧ (CacheKeysNodup s → CacheKeysNodup s') := by
  unfold createCharacter at h
  dsimp only at h
  split at h
  · simp at h
  · next db' hins =>
    obtain ⟨hnone, hdb⟩ := insertChar_ok hins
    subst hdb
    simp only [Prod.mk.injEq, Except.ok.injEq] at h
    obtain ⟨hch, hs⟩ := h
    subst hch
    subst hs
    constructor
    · unfold charConverged findChar
      dsimp only
      rw [alGet_alSet_self, List.find?_append]
      rw [show (s.db.characters.find?
          (fun r => r.id == generateCharacterId d.name s.db)) = none from hnone]
      rw [Option.none_or]
      rw [List.find?_cons_of_pos _ (by simp [mkCharRow])]
      rw [Option.map_some']
      rw [rowToCharacter_mkCharRow]
    · intro hk
      refine ⟨?_, hk.2⟩
      exact alSet_keys_nodup _ _ _ hk.1

theorem createVoice_ok (h : createVoice now uuid d s = (.ok v, s')) :
    voiceConverged s' v.voice ∧ (CacheKeysNodup s → CacheKeysNodup s') := by
  unfold createVoice at h
  dsimp only at h
  split at h
  · simp at h
  · split at h
    · simp at h
    · split at h
      · simp at h
      · next db' hins =>
        obtain ⟨hnone, hdb⟩ := insertVoice_ok hins
        subst hdb
        simp only [Prod.mk.injEq, Except.ok.injEq] at h
        obtain ⟨hv, hs⟩ := h
        subst hv
        subst hs
        constructor
        · unfold voiceConverged findVoice
          dsimp only
          rw [alGet_alSet_self, List.find?_append]
          rw [show (s.db.voices.find?
              (fun r => r.voice == pyStrip d.voice)) = none from hnone]
          rw [Option.none_or]
          rw [List.find?_cons_of_pos _ (by simp [mkVoiceRow])]
          simp [rowToVoice_mkVoiceRow]
        · intro hk
          refine ⟨hk.1, ?_⟩
          exact alSet_keys_nodup _ _ _ hk.2

theorem updateCharacter_ok (h : updateCharacter now cid d s = (.ok c, s')) :
    charConverged s' cid ∧ (CacheKeysNodup s → CacheKeysNodup s') := by
  unfold updateCharacter at h
  split at h
  · simp at h
  · split at h
    · dsimp only at h
      split at h
      · simp at h
      · next r hf =>
        simp only [Prod.mk.injEq, Except.ok.injEq] at h
        obtain ⟨hc, hs⟩ := h
        subst hc
        subst hs
        constructor
        · unfold charConverged
          dsimp only
          rw [alGet_alSet_self, hf]
          rfl
        · intro hk
          exact ⟨alSet_keys_nodup _ _ _ hk.1, hk.2⟩
    · simp at h

theorem deleteCharacter_ok (h : deleteCharacter cid s = (.ok b, s')) :
    charConverged s' cid ∧ (CacheKeysNodup s → CacheKeysNodup s') := by
  unfold deleteCharacter at h
  split at h
  · simp at h
  · simp only [Prod.mk.injEq, Except.ok.injEq] at h
    obtain ⟨hb, hs⟩ := h
    subst hs
    constructor
    · unfold charConverged findChar
      dsimp only
      rw [find?_filter_not]
      by_cases hc : (alGet cid s.charCache).isSome
      · rw [if_pos hc, alGet_alDel_self]
        rfl
      · rw [if_neg hc, Option.not_isSome_iff_eq_none.mp hc]
        rfl
    · intro hk
      refine ⟨?_, hk.2⟩
      by_cases hc : (alGet cid s.charCache).isSome
      · rw [if_pos hc]
        exact alDel_keys_nodup _ _ hk.1
      · rw [if_neg hc]
        exact hk.1

theorem deleteVoiceCore_ok (h : deleteVoiceCore now name s₁ = (.ok b, s')) :
    voiceConverged s' name ∧ (CacheKeysNodup s₁ → CacheKeysNodup s') := by
  unfold deleteVoiceCore at h
  simp only [Prod.mk.injEq, Except.ok.injEq] at h
  obtain ⟨hb, hs⟩ := h
  subst hs
  constructor
  · unfold voiceConverged findVoice
    dsimp only
    rw [find?_filter_not]
    by_cases hc : (alGet name s₁.voiceCache).isSome
    · rw [if_pos hc, alGet_alDel_self]
      exact ⟨rfl, rfl⟩
    · rw [if_neg hc, Option.not_isSome_iff_eq_none.mp hc]
      exact ⟨rfl, rfl⟩
  · intro hk
    constructor
    · by_cases hl : s₁.cacheLoaded = true
      · rw [if_pos hl]
        rw [show (mapVals (fun c => if c.voice == name then
            { c with voice := "", updated_at := some now } else c)
            s₁.charCache).map Prod.fst = s₁.charCache.map Prod.fst from
          mapVals_keys _ _]
        exact hk.1
      · rw [if_neg hl]
        exact hk.1
    · by_cases hc : (alGet name s₁.voiceCache).isSome
      · rw [if_pos hc]
        exact alDel_keys_nodup _ _ hk.2
      · rw [if_neg hc]
        exact hk.2

theorem updateVoiceCore_ok (h : updateVoiceCore now name d s₁ = (.ok v, s')) :
    voiceConverged s' v.voice ∧ (CacheKeysNodup s₁ → CacheKeysNodup s') := by
  unfold updateVoiceCore at h
  split at h
  · simp at h
  · next ren hpn =>
    dsimp only at h
    split at h
    · split at h
      · simp at h
      · split at h
        · simp at h
        · next r hf =>
          simp only [Prod.mk.injEq, Except.ok.injEq] at h
          obtain ⟨hv, hs⟩ := h
          subst hv
          subst hs
          have hrv : r.voice = ren.getD name := by
            unfold findVoice at hf
            have := List.find?_some hf
            simpa using this
          constructor
          · constructor
            · dsimp only
              rw [alGet_alSet_self]
              rw [show (rowToVoice r).voice = ren.getD name from hrv, hf]
              rfl
            · dsimp only
              rw [alGet_alSet_self]
              rw [show (rowToVoice r).voice = ren.getD name from hrv, hf]
              rfl
          · intro hk
            constructor
            · dsimp only
              match ren with
              | some nv =>
                dsimp only
                by_cases hl : s₁.cacheLoaded = true
                · rw [if_pos hl]
                  rw [show (mapVals (fun c => if c.voice == name then
                      { c with voice := nv, updated_at := some now } else c)
                      s₁.charCache).map Prod.fst = s₁.charCache.map Prod.fst from
                    mapVals_keys _ _]
                  exact hk.1
                · rw [if_neg hl]
                  exact hk.1
              | none => exact hk.1
            · dsimp only
              apply alSet_keys_nodup
              match ren with
              | some nv =>
                dsimp only
                by_cases hc : (alGet name s₁.voiceCache).isSome
                · rw [if_pos hc]
                  exact alDel_keys_nodup _ _ hk.2
                · rw [if_neg hc]
                  exact hk.2
              | none => exact hk.2
    · simp at h

theorem getVoice_nodup (name : String) (s : DD) (hk : CacheKeysNodup s) :
    CacheKeysNodup (getVoice name s).2 := by
  unfold getVoice getVoiceFallback
  cases hl : s.cacheLoaded
  · cases hf : findVoice name s.db
    · exact hk
    · exact ⟨hk.1, alSet_keys_nodup _ _ _ hk.2⟩
  · cases hc : alGet name s.voiceCache
    · cases hf : findVoice name s.db
      · exact hk
      · exact ⟨hk.1, alSet_keys_nodup _ _ _ hk.2⟩
    · exact hk

/-- C1: For every successful synchronous mutation of a character or voice
(create, update, delete, rename), after the call returns, reading that entity
from the in-memory cache and decoding a fresh read of the same row from the
durable store yield field-identical results, and the cache holds at most one
entry per id (no-duplicate cache keys are preserved by every such
mutation). -/
theorem C1_cache_store_convergence :
    (∀ (now : String) (d : CharacterCreate) (s : DD) (ch : Character) (s' : DD),
      createCharacter now d s = (.ok ch, s') →
      charConverged s' ch.id ∧ (CacheKeysNodup s → CacheKeysNodup s')) ∧
    (∀ (now cid : String) (d : CharacterUpdate) (s : DD) (c : Character) (s' : DD),
      updateCharacter now cid d s = (.ok c, s') →
      charConverged s' cid ∧ (CacheKeysNodup s → CacheKeysNodup s')) ∧
    (∀ (cid : String) (s : DD) (b : Bool) (s' : DD),
      deleteCharacter cid s = (.ok b, s') →
      charConverged s' cid ∧ (CacheKeysNodup s → CacheKeysNodup s')) ∧
    (∀ (now uuid : String) (d : VoiceCreate) (s : DD) (v : Voice) (s' : DD),
      createVoice now uuid d s = (.ok v, s') →
      voiceConverged s' v.voice ∧ (CacheKeysNodup s → CacheKeysNodup s')) ∧
    (∀ (now name : String) (d : VoiceUpdate) (s : DD) (v : Voice) (s' : DD),
      updateVoice now name d s = (.ok v, s') →
      voiceConverged s' v.voice ∧ (CacheKeysNodup s → CacheKeysNodup s')) ∧
    (∀ (now name : String) (s : DD) (b : Bool) (s' : DD),
      deleteVoice now name s = (.ok b, s') →
      voiceConverged s' name ∧ (CacheKeysNodup s → CacheKeysNodup s')) := by
  refine ⟨?_, ?_, ?_, ?_, ?_, ?_⟩
  · intro now d s ch s' h
    exact createCharacter_ok h
  · intro now cid d s c s' h
    exact updateCharacter_ok h
  · intro cid s b s' h
    exact deleteCharacter_ok h
  · intro now uuid d s v s' h
    exact createVoice_ok h
  · intro now name d s v s' h
    unfold updateVoice at h
    rcases hgv : getVoice name s with ⟨res, s₁⟩
    rw [hgv] at h
    cases res with
    | error e => simp at h
    | ok _ =>
      have hcore := updateVoiceCore_ok h
      refine ⟨hcore.1, fun hk => hcore.2 ?_⟩
      have h2 := getVoice_nodup name s hk
      rw [hgv] at h2
      exact h2
  · intro now name s b s' h
    unfold deleteVoice at h
    rcases hgv : getVoice name s with ⟨res, s₁⟩
    rw [hgv] at h
    cases res with
    | error e => simp at h
    | ok _ =>
      have hcore := deleteVoiceCore_ok h
      refine ⟨hcore.1, fun hk => hcore.2 ?_⟩
      have h2 := getVoice_nodup name s hk
      rw [hgv] at h2
      exact h2

theorem C1_cache_store_convergence_witness :
    voiceConverged (createVoice "t" "u" { voice := "aria" } ({} : DD)).2 "aria" ∧
    CacheKeysNodup (createVoice "t" "u" { voice := "aria" } ({} : DD)).2 := by
  have h := C1_cache_store_convergence.2.2.2.1 "t" "u" { voice := "aria" } {}
    { voice := "aria", id := some "u", created_at := some "t",
      updated_at := some "t" }
    (createVoice "t" "u" { voice := "aria" } ({} : DD)).2 (by rfl)
  exact ⟨h.1, h.2 ⟨List.nodup_nil, List.nodup_nil⟩⟩
